import Mathlib

/-!
Verification of the Versatex Analytics bulk CSV-ingestion pipeline.

The definitions below are a shallow embedding of the Python source:

* `backend/apps/procurement/services.py` — `sanitize_csv_value`,
  `validate_csv_file`, `CSVProcessor.process`, `CSVProcessor._process_rows`,
  `CSVProcessor._process_row`, `CSVProcessor._sanitize_error_log`,
  `CSVProcessor._sanitize_error_message`, `CSVProcessor._validate_columns`.
* `backend/apps/procurement/models.py` — `sanitize_filename`, the
  `Transaction` uniqueness constraint, and `DataUpload.save`.

Strings are modelled as `List Char`.  Python `str.strip` is modelled for the
ASCII whitespace characters (space, tab, newline, carriage return, vertical
tab, form feed); the regex classes `\w` and `\s` are modelled on the ASCII
range.  `pandas.to_datetime` is an external library call and is passed in as
an oracle `pdate : List Char → Option Nat`; `pandas.read_csv` likewise enters
as an already-parsed `Except` value (header columns plus data rows).
Database rows live in an explicit `DB` state; Django's per-row
`transaction.atomic` is modelled by returning the caller's state unchanged
whenever `_process_row` raises, and also on the caught-`IntegrityError`
duplicate branch (a caught `IntegrityError` still marks the enclosing atomic
block for rollback).  `Decimal` parsing is modelled for the sign/digits/point
fragment of its grammar, which covers every amount the claims mention.
-/

namespace Versatex

abbrev Str := List Char

/-! ### Sanitizer (services.py lines 18-40, models.py lines 20-49) -/

/-- services.py line 19: characters that can trigger formula execution. -/
def FORMULA_CHARS : List Char := ['=', '+', '-', '@', '\t', '\r', '\n']

/-- ASCII model of the whitespace set removed by Python `str.strip()`. -/
def pyIsSpace (c : Char) : Bool :=
  c = ' ' || c = '\t' || c = '\n' || c = '\r' || c = '\x0b' || c = '\x0c'

/-- Left part of Python `str.strip()`. -/
def lstrip (s : Str) : Str := s.dropWhile pyIsSpace

/-- Right part of Python `str.strip()`. -/
def rstrip (s : Str) : Str := (s.reverse.dropWhile pyIsSpace).reverse

/-- Python `str.strip()`. -/
def pyStrip (s : Str) : Str := rstrip (lstrip s)

/-- services.py lines 25-40: `sanitize_csv_value`.  The empty string is
returned unchanged; otherwise the value is stripped and, when the stripped
value starts with a formula character, prefixed with a single quote. -/
def sanitize_csv_value (value : Str) : Str :=
  if value = [] then value
  else
    match pyStrip value with
    | [] => []
    | c :: rest => if c ∈ FORMULA_CHARS then '\'' :: c :: rest else c :: rest

/-! ### Basic facts about `pyStrip` -/

theorem dropWhile_head_not_of_eq {p : Char → Bool} {l : Str} {c : Char} {v : Str}
    (h : l.dropWhile p = c :: v) : p c = false := by
  induction l with
  | nil => simp [List.dropWhile] at h
  | cons a l ih =>
    rw [List.dropWhile_cons] at h
    by_cases hp : p a
    · exact ih (by simpa [hp] using h)
    · simp only [hp, if_false] at h
      cases h
      simpa using hp

theorem dropWhile_of_head_false {p : Char → Bool} {c : Char} (v : Str)
    (h : p c = false) : (c :: v).dropWhile p = c :: v := by
  simp [List.dropWhile_cons, h]

theorem dropWhile_eq_drop (p : Char → Bool) (l : Str) :
    ∃ n, l.dropWhile p = l.drop n := by
  induction l with
  | nil => exact ⟨0, rfl⟩
  | cons a l ih =>
    by_cases hp : p a
    · obtain ⟨n, hn⟩ := ih
      exact ⟨n + 1, by simpa [List.dropWhile_cons, hp] using hn⟩
    · exact ⟨0, by simp [List.dropWhile_cons, hp]⟩

theorem rstrip_eq_take (s : Str) : ∃ m, rstrip s = s.take m := by
  obtain ⟨n, hn⟩ := dropWhile_eq_drop pyIsSpace s.reverse
  refine ⟨s.length - n, ?_⟩
  rw [rstrip, hn, List.reverse_drop, List.reverse_reverse, List.length_reverse]

theorem take_head? {m : Nat} {X : Str} (h : X.take m ≠ []) :
    (X.take m).head? = X.head? := by
  cases m with
  | zero => simp at h
  | succ m => cases X with
    | nil => simp at h
    | cons a l => simp [List.take_succ_cons]

/-- The head of a stripped string is never whitespace. -/
theorem pyStrip_head_not_space {s : Str} {c : Char} {v : Str}
    (h : pyStrip s = c :: v) : pyIsSpace c = false := by
  obtain ⟨m, hm⟩ := rstrip_eq_take (lstrip s)
  rw [pyStrip, hm] at h
  have hne : (lstrip s).take m ≠ [] := by rw [h]; simp
  have hh := take_head? hne
  rw [h] at hh
  cases hl : lstrip s with
  | nil => rw [hl] at hh; simp at hh
  | cons a l =>
    rw [hl] at hh
    simp only [List.head?_cons] at hh
    cases hh
    exact dropWhile_head_not_of_eq hl

/-- A string whose first and last characters are not whitespace strips to
itself. -/
theorem pyStrip_no_op {s : Str} (hne : s ≠ [])
    (hhead : ∀ c v, s = c :: v → pyIsSpace c = false)
    (hlast : ∀ c v, s.reverse = c :: v → pyIsSpace c = false) :
    pyStrip s = s := by
  obtain ⟨a, l, rfl⟩ := List.exists_cons_of_ne_nil hne
  have h1 : lstrip (a :: l) = a :: l :=
    dropWhile_of_head_false _ (hhead a l rfl)
  rw [pyStrip, h1, rstrip]
  cases hr : (a :: l).reverse with
  | nil => simp at hr
  | cons b m =>
    rw [dropWhile_of_head_false _ (hlast b m hr), ← hr, List.reverse_reverse]

/-- The reverse of a stripped string has a non-whitespace head (i.e. the last
character of a stripped string is never whitespace). -/
theorem pyStrip_last_not_space {s : Str} {c : Char} {v : Str}
    (h : (pyStrip s).reverse = c :: v) : pyIsSpace c = false := by
  have : (pyStrip s).reverse = (lstrip s).reverse.dropWhile pyIsSpace := by
    rw [pyStrip, rstrip, List.reverse_reverse]
  rw [this] at h
  exact dropWhile_head_not_of_eq h

/-- Stripping is idempotent. -/
theorem pyStrip_idem (s : Str) : pyStrip (pyStrip s) = pyStrip s := by
  cases hs : pyStrip s with
  | nil => simp [pyStrip, lstrip, rstrip]
  | cons c v =>
    refine pyStrip_no_op (by simp) ?_ ?_
    · intro c' v' h
      injection h with h1 h2
      subst h1
      exact pyStrip_head_not_space hs
    · intro c' v' h
      exact pyStrip_last_not_space (s := s) (by rw [hs]; exact h)

/-- Characterization of `sanitize_csv_value`: the result is the stripped
value, quote-prefixed exactly when the stripped value starts with `=`, `+`,
`-` or `@` (the whitespace members of `FORMULA_CHARS` can never appear at the
head of a stripped value). -/
theorem sanitize_csv_value_eq (s : Str) :
    sanitize_csv_value s =
      match pyStrip s with
      | [] => []
      | c :: rest =>
          if c = '=' ∨ c = '+' ∨ c = '-' ∨ c = '@' then '\'' :: c :: rest
          else c :: rest := by
  rw [sanitize_csv_value]
  by_cases hs : s = []
  · subst hs
    simp [pyStrip, lstrip, rstrip]
  · simp only [if_neg hs]
    cases h : pyStrip s with
    | nil => rfl
    | cons c rest =>
      have hc : pyIsSpace c = false := pyStrip_head_not_space h
      have hiff : (c ∈ FORMULA_CHARS) ↔ (c = '=' ∨ c = '+' ∨ c = '-' ∨ c = '@') := by
        constructor
        · intro hmem
          simp only [FORMULA_CHARS, List.mem_cons, List.not_mem_nil, or_false] at hmem
          rcases hmem with h1 | h1 | h1 | h1 | h1 | h1 | h1 <;>
            first
              | exact Or.inl h1
              | exact Or.inr (Or.inl h1)
              | exact Or.inr (Or.inr (Or.inl h1))
              | exact Or.inr (Or.inr (Or.inr h1))
              | (subst h1; simp [pyIsSpace] at hc)
        · intro hmem
          rcases hmem with h1 | h1 | h1 | h1 <;> subst h1 <;> decide
      dsimp only
      by_cases hf : c ∈ FORMULA_CHARS
      · rw [if_pos hf, if_pos (hiff.mp hf)]
      · rw [if_neg hf, if_neg (fun hx => hf (hiff.mpr hx))]

/-- The stripped value, with a quote prepended, is already fully stripped. -/
theorem pyStrip_quote_cons {s : Str} {c : Char} {v : Str}
    (hs : pyStrip s = c :: v) :
    pyStrip ('\'' :: c :: v) = '\'' :: c :: v := by
  refine pyStrip_no_op (by simp) ?_ ?_
  · intro c' v' h'
    injection h' with h1 h2
    subst h1
    decide
  · intro c' v' h'
    rw [List.reverse_cons] at h'
    cases hrev : (c :: v).reverse with
    | nil => simp at hrev
    | cons b m =>
      rw [hrev] at h'
      injection h' with h1 h2
      subst h1
      exact pyStrip_last_not_space (s := s) (by rw [hs]; exact hrev)

/-- The stripped value itself is already fully stripped (cons form). -/
theorem pyStrip_strip_cons {s : Str} {c : Char} {v : Str}
    (hs : pyStrip s = c :: v) :
    pyStrip (c :: v) = c :: v := by
  rw [← hs, pyStrip_idem]

/-! ### Claim C2 -/

/-- Claim C2, counterexample.  The claim says a value whose *first* character
is a TAB is returned prefixed with the neutralizing quote and otherwise
content-preserving.  The code strips the value before examining its first
character, so `"\tabc"` comes back as `"abc"`: no quote is prepended and the
tab is gone. -/
theorem claim_C2_counterexample :
    sanitize_csv_value ('\t' :: 'a' :: 'b' :: 'c' :: []) = 'a' :: 'b' :: 'c' :: []
    ∧ (sanitize_csv_value ('\t' :: 'a' :: 'b' :: 'c' :: [])).head? ≠ some '\'' := by
  constructor
  · rfl
  · decide

/-- Claim C2, amended.  `sanitize_csv_value` first trims the value; when the
*trimmed* value is non-empty and starts with one of `=`, `+`, `-`, `@` it is
returned with a single neutralizing quote prepended, and otherwise the trimmed
value is returned unchanged.  A trimmed value can never start with TAB, CR or
LF, so those three members of `FORMULA_CHARS` can never trigger the quote. -/
theorem claim_C2_amended (s : Str) :
    sanitize_csv_value s =
      match pyStrip s with
      | [] => []
      | c :: rest =>
          if c = '=' ∨ c = '+' ∨ c = '-' ∨ c = '@' then '\'' :: c :: rest
          else c :: rest :=
  sanitize_csv_value_eq s

/-! ### Claim C10 -/

/-- Claim C10, confirmed.  `sanitize_csv_value` is idempotent: a value that is
sanitized at ingestion and sanitized again on CSV export (services.py lines
360-365) never accumulates a second neutralizing quote. -/
theorem claim_C10_idempotent (s : Str) :
    sanitize_csv_value (sanitize_csv_value s) = sanitize_csv_value s := by
  cases h : pyStrip s with
  | nil =>
    have h0 : sanitize_csv_value s = [] := by
      rw [sanitize_csv_value_eq, h]
    rw [h0, sanitize_csv_value]
    simp
  | cons c v =>
    by_cases hf : c = '=' ∨ c = '+' ∨ c = '-' ∨ c = '@'
    · have h1 : sanitize_csv_value s = '\'' :: c :: v := by
        rw [sanitize_csv_value_eq, h]
        dsimp only
        rw [if_pos hf]
      rw [h1, sanitize_csv_value_eq, pyStrip_quote_cons h]
      dsimp only
      rw [if_neg (by decide)]
    · have h1 : sanitize_csv_value s = c :: v := by
        rw [sanitize_csv_value_eq, h]
        dsimp only
        rw [if_neg hf]
      rw [h1, sanitize_csv_value_eq, pyStrip_strip_cons h]
      dsimp only
      rw [if_neg hf]

/-! ### Substring search (Python's `in` on strings) -/

/-- Python `needle in hay` for strings. -/
def hasSubstr (needle hay : Str) : Bool :=
  hay.tails.any (fun t => needle.isPrefixOf t)

/-! ### `sanitize_filename` (models.py lines 20-49) -/

/-- ASCII model of the regex class `\w`. -/
def isWordChar (c : Char) : Bool := c.isAlphanum || c = '_'

/-- Character class kept by `re.sub(r'[^\w\s\-\.]', '', ...)`
(models.py line 38). -/
def isSafeChar (c : Char) : Bool :=
  isWordChar c || pyIsSpace c || c = '-' || c = '.'

/-- `filename.replace('\\', '/').split('/')[-1]` keeps the text after the
last separator (models.py line 29). -/
def lastSegment (s : Str) : Str := (s.reverse.takeWhile (· != '/')).reverse

/-- `re.sub(r'\.\.+', '', filename)` (models.py line 32): every maximal run
of two or more consecutive dots is removed; single dots survive.  The
accumulator counts the dots of the run in progress. -/
def removeDotRunsGo : Nat → Str → Str
  | n, [] => if n ≥ 2 then [] else List.replicate n '.'
  | n, c :: rest =>
    if c = '.' then removeDotRunsGo (n + 1) rest
    else
      (if n ≥ 2 then [] else List.replicate n '.') ++ c :: removeDotRunsGo 0 rest

def removeDotRuns (s : Str) : Str := removeDotRunsGo 0 s

/-- Python `s.rsplit('.', 1)` for a string containing a dot: the pair of the
text before and after the last dot. -/
def rsplitDot (s : Str) : Str × Str :=
  ((s.reverse.dropWhile (· != '.')).tail.reverse,
   (s.reverse.takeWhile (· != '.')).reverse)

/-- Length of the text after the last dot (the whole string when it has no
dot). -/
def extLen (s : Str) : Nat := (s.reverse.takeWhile (· != '.')).length

/-- models.py lines 29-38: drop directory components, remove repeated-dot
runs, strip null bytes, keep only safe characters. -/
def safeName (filename : Str) : Str :=
  ((removeDotRuns
      (lastSegment (filename.map (fun c => if c = '\\' then '/' else c)))).filter
    (· != '\x00')).filter isSafeChar

/-- models.py lines 41-42: prefix `file_` when the result is empty or starts
with a dot. -/
def guardedName (filename : Str) : Str :=
  if safeName filename = [] ∨ (safeName filename).head? = some '.' then
    "file_".data ++ safeName filename
  else safeName filename

/-- models.py lines 45-47: truncate to 195 characters, preserving the text
after the last dot as the extension. -/
def truncateName (t : Str) : Str :=
  if 200 < t.length then
    if '.' ∈ t then
      (rsplitDot t).1.take 195 ++ (if (rsplitDot t).2 ≠ [] then '.' :: (rsplitDot t).2 else [])
    else t.take 195
  else t

/-- models.py lines 20-49: `sanitize_filename`. -/
def sanitize_filename (filename : Str) : Str :=
  if filename = [] then "unnamed_file".data
  else truncateName (guardedName filename)

/-! ### Claim C7 -/

/-- Concrete filename used to refute claim C7: it contains `../`, its final
segment hides two single dots around an unsafe character, and it carries a
250-character extension. -/
def c7input : Str := "../a.!.".data ++ List.replicate 250 'y'

theorem head?_append_left {l : Str} (l' : Str) (h : l ≠ []) :
    (l ++ l').head? = l.head? := by
  obtain ⟨a, t, rfl⟩ := List.exists_cons_of_ne_nil h
  rfl

theorem take_ne_nil_of_ne_nil {t : Str} (h : t ≠ []) (n : Nat) (hn : n ≠ 0) :
    t.take n ≠ [] := by
  intro h0
  rcases List.take_eq_nil_iff.mp h0 with h1 | h1
  · exact hn h1
  · exact h h1

theorem takeWhile_append_stop {p : Char → Bool} {A : Str} (x : Char) (B : Str)
    (hA : ∀ c ∈ A, p c = true) (hx : p x = false) :
    (A ++ x :: B).takeWhile p = A := by
  induction A with
  | nil => simp [List.takeWhile_cons, hx]
  | cons a A ih =>
    have ha : p a = true := hA a (by simp)
    simp only [List.cons_append, List.takeWhile_cons, ha, if_true]
    rw [ih (fun c hc => hA c (by simp [hc]))]

/-- When a string contains a dot, `rsplitDot` splits it at the last dot and
the extension part is dot-free. -/
theorem rsplitDot_spec {t : Str} (hdot : '.' ∈ t) :
    t = (rsplitDot t).1 ++ '.' :: (rsplitDot t).2
    ∧ ∀ c ∈ (rsplitDot t).2, c ≠ '.' := by
  have hdotrev : '.' ∈ t.reverse := List.mem_reverse.mpr hdot
  have hD : t.reverse.dropWhile (· != '.') ≠ [] := by
    intro h0
    have hall := List.dropWhile_eq_nil_iff.mp h0
    have := hall '.' hdotrev
    simp at this
  obtain ⟨d, D', hsplit⟩ := List.exists_cons_of_ne_nil hD
  have hd : (d != '.') = false :=
    dropWhile_head_not_of_eq (p := fun x => x != '.') hsplit
  have hd' : d = '.' := by simpa using hd
  subst hd'
  have hrev : t.reverse = t.reverse.takeWhile (· != '.') ++ '.' :: D' := by
    conv_lhs => rw [← List.takeWhile_append_dropWhile (· != '.') t.reverse]
    rw [hsplit]
  have hname : (rsplitDot t).1 = D'.reverse := by
    rw [rsplitDot, hsplit]
    rfl
  have hext : (rsplitDot t).2 = (t.reverse.takeWhile (· != '.')).reverse := rfl
  constructor
  · have hrev2 : t.reverse = ((rsplitDot t).1 ++ '.' :: (rsplitDot t).2).reverse := by
      rw [hname, hext]
      simp only [List.reverse_append, List.reverse_cons, List.reverse_reverse,
        List.append_assoc, List.singleton_append]
      exact hrev
    exact List.reverse_injective hrev2
  · intro c hc
    rw [hext] at hc
    have hmem : c ∈ t.reverse.takeWhile (· != '.') := List.mem_reverse.mp hc
    have := List.mem_takeWhile_imp hmem
    simpa using this

theorem isSafeChar_of_mem_safeName {f : Str} {c : Char} (h : c ∈ safeName f) :
    isSafeChar c = true :=
  List.of_mem_filter h

/-- The guarded name is non-empty, does not start with a dot, and consists
only of safe characters. -/
theorem guardedName_props (f : Str) :
    guardedName f ≠ [] ∧ (guardedName f).head? ≠ some '.'
    ∧ ∀ c ∈ guardedName f, isSafeChar c = true := by
  rw [guardedName]
  by_cases hg : safeName f = [] ∨ (safeName f).head? = some '.'
  · rw [if_pos hg]
    refine ⟨by simp, ?_, ?_⟩
    · rw [head?_append_left _ (by decide)]
      decide
    · intro c hc
      rcases List.mem_append.mp hc with hc | hc
      · have : ∀ c ∈ "file_".data, isSafeChar c = true := by decide
        exact this c hc
      · exact isSafeChar_of_mem_safeName hc
  · rw [if_neg hg]
    push_neg at hg
    exact ⟨hg.1, hg.2, fun c hc => isSafeChar_of_mem_safeName hc⟩

/-- Truncation preserves non-emptiness, the leading character, and safety of
all characters, and bounds the length by `max 200 (196 + extension)`. -/
theorem truncateName_props (t : Str) (hne : t ≠ []) (hhd : t.head? ≠ some '.')
    (hsafe : ∀ c ∈ t, isSafeChar c = true) :
    truncateName t ≠ [] ∧ (truncateName t).head? ≠ some '.'
    ∧ (∀ c ∈ truncateName t, isSafeChar c = true)
    ∧ (truncateName t).length ≤ max 200 (196 + extLen (truncateName t)) := by
  rw [truncateName]
  by_cases hlen : 200 < t.length
  · rw [if_pos hlen]
    by_cases hdot : '.' ∈ t
    · rw [if_pos hdot]
      obtain ⟨hsplit, hextf⟩ := rsplitDot_spec hdot
      have hname_ne : (rsplitDot t).1 ≠ [] := by
        intro h0
        rw [h0, List.nil_append] at hsplit
        rw [hsplit] at hhd
        simp at hhd
      obtain ⟨a, name', hname⟩ := List.exists_cons_of_ne_nil hname_ne
      have hta : t.head? = some a := by
        rw [hsplit, hname]
        rfl
      have ha : a ≠ '.' := by
        intro h0
        rw [h0] at hta
        exact hhd hta
      have hmem_name : ∀ c ∈ (rsplitDot t).1, c ∈ t := by
        intro c hc
        rw [hsplit]
        exact List.mem_append_left _ hc
      have hmem_ext : ∀ c ∈ (rsplitDot t).2, c ∈ t := by
        intro c hc
        rw [hsplit]
        exact List.mem_append_right _ (List.mem_cons_of_mem _ hc)
      by_cases hext : (rsplitDot t).2 ≠ []
      · rw [if_pos hext]
        have htake : (rsplitDot t).1.take 195 = a :: name'.take 194 := by
          rw [hname]
          rfl
        refine ⟨by simp, ?_, ?_, ?_⟩
        · rw [htake]
          simpa using ha
        · intro c hc
          rcases List.mem_append.mp hc with hc | hc
          · exact hsafe c (hmem_name c (List.mem_of_mem_take hc))
          · rcases List.mem_cons.mp hc with hc | hc
            · subst hc; decide
            · exact hsafe c (hmem_ext c hc)
        · have hrev : ((rsplitDot t).1.take 195 ++ '.' :: (rsplitDot t).2).reverse
              = (rsplitDot t).2.reverse ++ '.' :: ((rsplitDot t).1.take 195).reverse := by
            rw [List.reverse_append, List.reverse_cons, List.append_assoc]
            simp
          have hextlen : extLen ((rsplitDot t).1.take 195 ++ '.' :: (rsplitDot t).2)
              = (rsplitDot t).2.length := by
            rw [extLen, hrev, takeWhile_append_stop '.' _ ?_ (by decide)]
            · exact List.length_reverse _
            · intro c hc
              have : c ∈ (rsplitDot t).2 := List.mem_reverse.mp hc
              simpa using hextf c this
          rw [hextlen]
          have h1 : ((rsplitDot t).1.take 195 ++ '.' :: (rsplitDot t).2).length
              ≤ 196 + (rsplitDot t).2.length := by
            rw [List.length_append, List.length_cons]
            have : ((rsplitDot t).1.take 195).length ≤ 195 := List.length_take_le _ _
            omega
          exact le_trans h1 (le_max_right _ _)
      · rw [if_neg hext]
        push_neg at hext
        have htake : (rsplitDot t).1.take 195 = a :: name'.take 194 := by
          rw [hname]
          rfl
        refine ⟨by rw [htake]; simp, ?_, ?_, ?_⟩
        · rw [htake]
          simpa using ha
        · intro c hc
          rw [List.append_nil] at hc
          exact hsafe c (hmem_name c (List.mem_of_mem_take hc))
        · rw [List.append_nil]
          have : ((rsplitDot t).1.take 195).length ≤ 195 := List.length_take_le _ _
          exact le_trans (by omega) (le_max_left 200 _)
    · rw [if_neg hdot]
      have hne' : t.take 195 ≠ [] := take_ne_nil_of_ne_nil hne 195 (by decide)
      refine ⟨hne', ?_, ?_, ?_⟩
      · rw [take_head? hne']
        exact hhd
      · intro c hc
        exact hsafe c (List.mem_of_mem_take hc)
      · have : (t.take 195).length ≤ 195 := List.length_take_le _ _
        exact le_trans (by omega) (le_max_left 200 _)
  · rw [if_neg hlen]
    exact ⟨hne, hhd, hsafe, le_trans (by omega) (le_max_left 200 _)⟩

theorem isSafeChar_no_sep {c : Char} (h : isSafeChar c = true) :
    c ≠ '/' ∧ c ≠ '\\' := by
  constructor <;> rintro rfl <;> simp [isSafeChar, isWordChar, pyIsSpace, Char.isAlphanum,
    Char.isAlpha, Char.isUpper, Char.isLower, Char.isDigit] at h

/-! ### Claim C7 -/

set_option maxRecDepth 4000 in
/-- Claim C7, counterexample.  The input contains `../`, yet the sanitized
output still contains a `..` sequence (removing the unsafe `!` between two
single dots re-creates one), and its length is 253 > 200 (truncation keeps
the whole trailing extension, however long). -/
theorem claim_C7_counterexample :
    hasSubstr "../".data c7input = true
    ∧ 200 < (sanitize_filename c7input).length
    ∧ hasSubstr "..".data (sanitize_filename c7input) = true := by
  refine ⟨by decide, ?_, by decide⟩
  decide

/-- Claim C7, amended.  For every input, `sanitize_filename` returns a
non-empty name that does not start with a dot and contains no path separator;
the 200-character bound, however, only holds up to the length of the trailing
extension (truncation caps the stem at 195 characters but preserves the whole
extension), so the guaranteed bound is `max 200 (196 + extension length)`;
and the no-`..` guarantee does not survive the unsafe-character filter (see
the counterexample), so it is dropped. -/
theorem claim_C7_amended (s : Str) :
    sanitize_filename s ≠ []
    ∧ (sanitize_filename s).head? ≠ some '.'
    ∧ (∀ c ∈ sanitize_filename s, c ≠ '/' ∧ c ≠ '\\')
    ∧ (sanitize_filename s).length
        ≤ max 200 (196 + extLen (sanitize_filename s)) := by
  rw [sanitize_filename]
  by_cases hs : s = []
  · rw [if_pos hs]
    refine ⟨by decide, by decide, ?_, by decide⟩
    intro c hc
    have : ∀ c ∈ "unnamed_file".data, c ≠ '/' ∧ c ≠ '\\' := by decide
    exact this c hc
  · rw [if_neg hs]
    obtain ⟨h1, h2, h3⟩ := guardedName_props s
    obtain ⟨g1, g2, g3, g4⟩ := truncateName_props _ h1 h2 h3
    exact ⟨g1, g2, fun c hc => isSafeChar_no_sep (g3 c hc), g4⟩

/-- Claim C7, witness for the amended theorem at a concrete input. -/
theorem claim_C7_amended_witness :
    sanitize_filename "../etc/passwd.csv".data ≠ []
    ∧ (sanitize_filename "../etc/passwd.csv".data).head? ≠ some '.'
    ∧ ('p' ∈ sanitize_filename "../etc/passwd.csv".data → 'p' ≠ '/' ∧ 'p' ≠ '\\')
    ∧ (sanitize_filename "../etc/passwd.csv".data).length
        ≤ max 200 (196 + extLen (sanitize_filename "../etc/passwd.csv".data)) :=
  ⟨(claim_C7_amended _).1, (claim_C7_amended _).2.1,
    fun h => (claim_C7_amended _).2.2.1 'p' h, (claim_C7_amended _).2.2.2⟩

/-! ### Error-message redaction (services.py lines 173-200) -/

/-- services.py lines 186-189: markers of internal structure. -/
def sensitive_patterns : List Str :=
  (["DETAIL:", "SQL", "psycopg2", "postgresql",
    "/app/", "/home/", "Traceback", "File \""] : List String).map String.data

/-- ASCII model of Python `str.lower()`. -/
def toLowerStr (s : Str) : Str := s.map Char.toLower

/-- services.py line 194: the generic replacement phrase. -/
def genericRowError : Str := "An error occurred while processing this row.".data

/-- services.py lines 184-200: `_sanitize_error_message`. -/
def sanitize_error_message (message : Str) : Str :=
  if sensitive_patterns.any
      (fun p => hasSubstr (toLowerStr p) (toLowerStr message)) then
    genericRowError
  else if 200 < message.length then message.take 200 ++ "...".data
  else message

/-- One entry of a `DataUpload.error_log`: a row position (absent for the
run-level catch-all entry of services.py line 166) and a message.  Raw row
data has no field to live in. -/
structure ErrEntry where
  row : Option Nat
  error : Str
deriving DecidableEq

/-- services.py lines 173-182: `_sanitize_error_log`. -/
def sanitize_error_log (errors : List (Nat × Str)) : List ErrEntry :=
  (errors.take 100).map (fun e => ⟨some e.1, sanitize_error_message e.2⟩)

/-! ### Facts about substring search and redaction -/

theorem bool_ne_false {b : Bool} (h : ¬ b = false) : b = true := by
  cases b
  · exact absurd rfl h
  · rfl

theorem isPrefixOf_eq_true_iff : ∀ (p t : Str), p.isPrefixOf t = true ↔ ∃ v, t = p ++ v := by
  intro p
  induction p with
  | nil => intro t; simp [List.isPrefixOf]
  | cons a p ih =>
    intro t
    cases t with
    | nil => simp [List.isPrefixOf]
    | cons b t =>
      simp only [List.isPrefixOf, Bool.and_eq_true, beq_iff_eq, ih t]
      constructor
      · rintro ⟨rfl, v, rfl⟩
        exact ⟨v, rfl⟩
      · rintro ⟨v, hv⟩
        injection hv with h1 h2
        exact ⟨h1.symm, v, h2⟩

theorem hasSubstr_exists {p h : Str} : hasSubstr p h = true ↔ ∃ u v, h = u ++ p ++ v := by
  rw [hasSubstr, List.any_eq_true]
  constructor
  · rintro ⟨t, ht, hpre⟩
    obtain ⟨u, hu⟩ := (List.mem_tails _ _).mp ht
    obtain ⟨v, rfl⟩ := (isPrefixOf_eq_true_iff p t).mp hpre
    exact ⟨u, v, by rw [← hu, List.append_assoc]⟩
  · rintro ⟨u, v, rfl⟩
    refine ⟨p ++ v, ?_, ?_⟩
    · exact (List.mem_tails _ _).mpr ⟨u, by rw [List.append_assoc]⟩
    · exact (isPrefixOf_eq_true_iff p _).mpr ⟨v, rfl⟩

theorem hasSubstr_nil (h : Str) : hasSubstr [] h = true :=
  hasSubstr_exists.mpr ⟨[], h, rfl⟩

theorem hasSubstr_of_take {p h : Str} {n : Nat}
    (hs : hasSubstr p (h.take n) = true) : hasSubstr p h = true := by
  obtain ⟨u, v, huv⟩ := hasSubstr_exists.mp hs
  refine hasSubstr_exists.mpr ⟨u, v ++ h.drop n, ?_⟩
  conv_lhs => rw [← List.take_append_drop n h]
  rw [huv]
  simp [List.append_assoc]

/-- A needle without dots found in `A ++ dots` is already present in `A`. -/
theorem hasSubstr_of_append_dots {p A D : Str} (hp : '.' ∉ p)
    (hD : ∀ c ∈ D, c = '.') (hs : hasSubstr p (A ++ D) = true) :
    hasSubstr p A = true := by
  by_cases hpe : p = []
  · subst hpe
    exact hasSubstr_nil A
  · obtain ⟨u, v, heq⟩ := hasSubstr_exists.mp hs
    have hpX : p = ((A ++ D).drop u.length).take p.length := by
      rw [heq, List.append_assoc, List.drop_left, List.take_left]
    by_cases hle : u.length + p.length ≤ A.length
    · have hdropA : (A ++ D).drop u.length = A.drop u.length ++ D := by
        rw [List.drop_append_eq_append_drop]
        have h0 : u.length - A.length = 0 := by omega
        rw [h0, List.drop_zero]
      have hpA : p = (A.drop u.length).take p.length := by
        conv_lhs => rw [hpX]
        rw [hdropA, List.take_append_eq_append_take]
        have h3 : p.length - (A.drop u.length).length = 0 := by
          rw [List.length_drop]
          omega
        rw [h3, List.take_zero, List.append_nil]
      refine hasSubstr_exists.mpr ⟨A.take u.length, (A.drop u.length).drop p.length, ?_⟩
      conv_lhs => rw [← List.take_append_drop u.length A]
      conv_lhs => rw [← List.take_append_drop p.length (A.drop u.length)]
      rw [← hpA, List.append_assoc]
    · exfalso
      apply hp
      by_cases hu : u.length ≤ A.length
      · have hdropA : (A ++ D).drop u.length = A.drop u.length ++ D := by
          rw [List.drop_append_eq_append_drop]
          have h0 : u.length - A.length = 0 := by omega
          rw [h0, List.drop_zero]
      -- p = take |p| (A.drop u ++ D) and |A.drop u| < |p|, so p reaches into D
        have hpA : p = A.drop u.length ++ D.take (p.length - (A.drop u.length).length) := by
          conv_lhs => rw [hpX]
          rw [hdropA, List.take_append_eq_append_take]
          have h2 : (A.drop u.length).take p.length = A.drop u.length := by
            apply List.take_of_length_le
            rw [List.length_drop]
            omega
          rw [h2]
        have hDne : D.take (p.length - (A.drop u.length).length) ≠ [] := by
          intro h0
          rcases List.take_eq_nil_iff.mp h0 with h1 | h1
          · rw [List.length_drop] at h1
            omega
          · subst h1
            rw [List.take_nil, List.append_nil] at hpA
            have hplen : p.length = A.length - u.length := by
              rw [hpA, List.length_drop]
            omega
        obtain ⟨d, D', hd⟩ := List.exists_cons_of_ne_nil hDne
        have hdD : d ∈ D := List.mem_of_mem_take (by rw [hd]; simp)
        have : d = '.' := hD d hdD
        subst this
        rw [hpA, hd]
        exact List.mem_append_right _ (by simp)
      · have hdropA : (A ++ D).drop u.length = D.drop (u.length - A.length) := by
          rw [List.drop_append_eq_append_drop]
          have : A.drop u.length = [] := by
            apply List.drop_eq_nil_of_le
            omega
          rw [this, List.nil_append]
        rw [hdropA] at hpX
        obtain ⟨a, p', hp'⟩ := List.exists_cons_of_ne_nil hpe
        have haD : a ∈ D := by
          have : a ∈ (D.drop (u.length - A.length)).take p.length := by
            rw [← hpX, hp']
            simp
          exact List.mem_of_mem_drop (List.mem_of_mem_take this)
        have : a = '.' := hD a haD
        subst this
        rw [hp']
        simp

theorem sensitive_patterns_dot_free :
    ∀ p ∈ sensitive_patterns, '.' ∉ toLowerStr p := by decide

theorem genericRowError_no_trigger :
    ∀ p ∈ sensitive_patterns,
      hasSubstr (toLowerStr p) (toLowerStr genericRowError) = false := by decide

/-- The redacted message never contains a sensitive marker
(case-insensitively). -/
theorem sanitize_error_message_no_trigger (m : Str) :
    ∀ p ∈ sensitive_patterns,
      hasSubstr (toLowerStr p) (toLowerStr (sanitize_error_message m)) = false := by
  intro p hp
  rw [sanitize_error_message]
  by_cases htrig : sensitive_patterns.any
      (fun q => hasSubstr (toLowerStr q) (toLowerStr m)) = true
  · rw [if_pos htrig]
    exact genericRowError_no_trigger p hp
  · rw [if_neg htrig]
    have hclean : ∀ q ∈ sensitive_patterns,
        hasSubstr (toLowerStr q) (toLowerStr m) = false := by
      intro q hq
      by_contra hx
      exact htrig (List.any_eq_true.mpr ⟨q, hq, bool_ne_false hx⟩)
    by_cases hlen : 200 < m.length
    · rw [if_pos hlen]
      by_contra hx
      have hx' : hasSubstr (toLowerStr p) (toLowerStr (m.take 200 ++ "...".data)) = true :=
        bool_ne_false hx
      have hdots : List.map Char.toLower "...".data = "...".data := by decide
      have hsplit : toLowerStr (m.take 200 ++ "...".data)
          = (toLowerStr m).take 200 ++ "...".data := by
        rw [toLowerStr, List.map_append, List.map_take, hdots]
        rfl
      rw [hsplit] at hx'
      have h1 : hasSubstr (toLowerStr p) ((toLowerStr m).take 200) = true :=
        hasSubstr_of_append_dots (sensitive_patterns_dot_free p hp)
          (by decide) hx'
      have h2 : hasSubstr (toLowerStr p) (toLowerStr m) = true :=
        hasSubstr_of_take h1
      rw [hclean p hp] at h2
      cases h2
    · rw [if_neg hlen]
      exact hclean p hp

/-- The redacted message never exceeds 203 characters (200 plus the `...`
marker). -/
theorem sanitize_error_message_length (m : Str) :
    (sanitize_error_message m).length ≤ 203 := by
  rw [sanitize_error_message]
  by_cases htrig : sensitive_patterns.any
      (fun q => hasSubstr (toLowerStr q) (toLowerStr m)) = true
  · rw [if_pos htrig]
    decide
  · rw [if_neg htrig]
    by_cases hlen : 200 < m.length
    · rw [if_pos hlen]
      have h1 : (m.take 200).length ≤ 200 := List.length_take_le _ _
      have h3 : ("...".data : Str).length = 3 := rfl
      rw [List.length_append, h3]
      omega
    · rw [if_neg hlen]
      omega

/-! ### Validator (services.py lines 43-80) -/

/-- An uploaded file as the validator sees it: name, byte size, contents,
and whether reading it succeeds (`readOk = false` models an unexpected I/O
exception caught by the `except` clause of services.py line 76). -/
structure UploadedFile where
  name : Str
  size : Nat
  content : List (Fin 256)
  readOk : Bool
deriving DecidableEq

/-- A UTF-8 continuation byte. -/
def isCont (b : Fin 256) : Bool := 0x80 ≤ b.val && b.val ≤ 0xBF

/-- Strict UTF-8 validity of a byte sequence (Python `bytes.decode('utf-8')`
succeeds): rejects overlong encodings, surrogates, and values above
U+10FFFF. -/
def utf8Valid : List (Fin 256) → Bool
  | [] => true
  | b :: rest =>
    if b.val ≤ 0x7F then utf8Valid rest
    else if b.val < 0xC2 then false
    else if b.val ≤ 0xDF then
      match rest with
      | b2 :: r => isCont b2 && utf8Valid r
      | [] => false
    else if b.val ≤ 0xEF then
      match rest with
      | b2 :: b3 :: r =>
        (decide ((if b.val = 0xE0 then 0xA0 else 0x80) ≤ b2.val)
          && decide (b2.val ≤ if b.val = 0xED then 0x9F else 0xBF))
          && isCont b3 && utf8Valid r
      | _ => false
    else if b.val ≤ 0xF4 then
      match rest with
      | b2 :: b3 :: b4 :: r =>
        (decide ((if b.val = 0xF0 then 0x90 else 0x80) ≤ b2.val)
          && decide (b2.val ≤ if b.val = 0xF4 then 0x8F else 0xBF))
          && isCont b3 && isCont b4 && utf8Valid r
      | _ => false
    else false

/-- Python `bytes.decode('latin-1')`: every byte 0x00-0xFF maps to
U+0000-U+00FF, so decoding never fails. -/
def latin1Valid (_ : List (Fin 256)) : Bool := true

/-- services.py lines 43-80: `validate_csv_file`. -/
def validate_csv_file (f : UploadedFile) : Bool × Str :=
  if List.isSuffixOf ".csv".data (toLowerStr f.name) = false then
    (false, "File must have .csv extension".data)
  else if 50 * 1024 * 1024 < f.size then
    (false, "File size must be less than 50MB".data)
  else if f.readOk = false then
    (false, "Could not validate file format".data)
  else if (0 : Fin 256) ∈ f.content.take 1024 then
    (false, "File appears to be binary, not CSV".data)
  else if utf8Valid (f.content.take 1024) then (true, [])
  else if latin1Valid (f.content.take 1024) then (true, [])
  else (false, "File encoding not recognized".data)

/-! ### Claim C9 -/

/-- Claim C9, confirmed.  `validate_csv_file` performs its checks in order
and short-circuits on the first failure; the legacy latin-1 fallback can
decode any byte sequence, so the `UnrecognizedEncoding` branch is
conditionally correct but unreachable, and any file whose first 1024 bytes
are free of null bytes passes; an I/O failure while reading yields the
generic message. -/
theorem claim_C9_validator (f : UploadedFile) :
    (List.isSuffixOf ".csv".data (toLowerStr f.name) = false →
      validate_csv_file f = (false, "File must have .csv extension".data))
    ∧ (List.isSuffixOf ".csv".data (toLowerStr f.name) = true →
        50 * 1024 * 1024 < f.size →
        validate_csv_file f = (false, "File size must be less than 50MB".data))
    ∧ (List.isSuffixOf ".csv".data (toLowerStr f.name) = true →
        f.size ≤ 50 * 1024 * 1024 → f.readOk = false →
        validate_csv_file f = (false, "Could not validate file format".data))
    ∧ (List.isSuffixOf ".csv".data (toLowerStr f.name) = true →
        f.size ≤ 50 * 1024 * 1024 → f.readOk = true →
        (0 : Fin 256) ∈ f.content.take 1024 →
        validate_csv_file f = (false, "File appears to be binary, not CSV".data))
    ∧ (List.isSuffixOf ".csv".data (toLowerStr f.name) = true →
        f.size ≤ 50 * 1024 * 1024 → f.readOk = true →
        (0 : Fin 256) ∉ f.content.take 1024 →
        validate_csv_file f = (true, []))
    ∧ (∀ bs : List (Fin 256), latin1Valid bs = true)
    ∧ (List.isSuffixOf ".csv".data (toLowerStr f.name) = true →
        f.size ≤ 50 * 1024 * 1024 → f.readOk = true →
        (0 : Fin 256) ∉ f.content.take 1024 →
        utf8Valid (f.content.take 1024) = false →
        latin1Valid (f.content.take 1024) = false →
        validate_csv_file f = (false, "File encoding not recognized".data)) := by
  refine ⟨?_, ?_, ?_, ?_, ?_, fun _ => rfl, ?_⟩
  · intro h1
    simp [validate_csv_file, h1]
  · intro h1 h2
    simp [validate_csv_file, h1, h2]
  · intro h1 h2 h3
    simp [validate_csv_file, h1, Nat.not_lt.mpr h2, h3]
  · intro h1 h2 h3 h4
    simp [validate_csv_file, h1, Nat.not_lt.mpr h2, h3, h4]
  · intro h1 h2 h3 h4
    by_cases h5 : utf8Valid (f.content.take 1024) = true
    · simp [validate_csv_file, h1, Nat.not_lt.mpr h2, h3, h4, h5]
    · simp [validate_csv_file, h1, Nat.not_lt.mpr h2, h3, h4,
        Bool.eq_false_iff.mpr h5, latin1Valid]
  · intro h1 h2 h3 h4 h5 h6
    rw [latin1Valid] at h6
    cases h6

/-- Claim C9, witness: a concrete 3-byte ASCII CSV file passes validation,
and a concrete `.txt` file fails the extension check. -/
theorem claim_C9_validator_witness :
    (List.isSuffixOf ".csv".data
        (toLowerStr (UploadedFile.mk "Data.CSV".data 100 [72, 101, 108] true).name) = true
      ∧ (UploadedFile.mk "Data.CSV".data 100 [72, 101, 108] true).size ≤ 50 * 1024 * 1024
      ∧ (0 : Fin 256) ∉ (UploadedFile.mk "Data.CSV".data 100 [72, 101, 108] true).content.take 1024
      ∧ validate_csv_file (UploadedFile.mk "Data.CSV".data 100 [72, 101, 108] true) = (true, []))
    ∧ validate_csv_file (UploadedFile.mk "notes.txt".data 100 [72] true)
        = (false, "File must have .csv extension".data) :=
  ⟨⟨by decide, by decide, by decide,
    (claim_C9_validator _).2.2.2.2.1 (by decide) (by decide) (by decide) (by decide)⟩,
   (claim_C9_validator _).1 (by decide)⟩

/-! ### Amount parsing (services.py lines 253-262) -/

instance exceptDecEq {ε α : Type} [DecidableEq ε] [DecidableEq α] :
    DecidableEq (Except ε α) := fun x y =>
  match x, y with
  | .ok a, .ok b =>
    if h : a = b then isTrue (by rw [h]) else isFalse (fun hx => h (by injection hx))
  | .ok _, .error _ => isFalse (fun hx => by cases hx)
  | .error _, .ok _ => isFalse (fun hx => by cases hx)
  | .error e, .error e' =>
    if h : e = e' then isTrue (by rw [h]) else isFalse (fun hx => h (by injection hx))

/-- An exact decimal value `num / 10 ^ scale`, modelling Python's
arbitrary-precision `Decimal`. -/
structure Dec where
  num : Int
  scale : Nat
deriving DecidableEq

/-- Exact order on decimals, by cross-multiplication. -/
def Dec.lt (a b : Dec) : Bool :=
  a.num * (10 : Int) ^ b.scale < b.num * (10 : Int) ^ a.scale

/-- Exact value equality on decimals (the numeric value the storage layer
compares, independent of trailing zeros). -/
def Dec.eqv (a b : Dec) : Bool :=
  a.num * (10 : Int) ^ b.scale = b.num * (10 : Int) ^ a.scale

/-- Decimal digits to a natural number (most significant first). -/
def digitsToNat (ds : Str) : Nat := ds.foldl (fun n c => 10 * n + (c.toNat - 48)) 0

/-- The sign/digits/point fragment of Python `Decimal(str)` parsing, which
covers every amount string the pipeline's claims mention (exponents and the
special values of the full `Decimal` grammar are not modelled). -/
def parseDecimalCore (r : Str) : Option Dec :=
  match r.dropWhile Char.isDigit with
  | [] =>
    if r.takeWhile Char.isDigit = [] then none
    else some ⟨(digitsToNat r : Int), 0⟩
  | '.' :: frac =>
    if frac.all Char.isDigit ∧ (r.takeWhile Char.isDigit ≠ [] ∨ frac ≠ []) then
      some ⟨(digitsToNat (r.takeWhile Char.isDigit ++ frac) : Int), frac.length⟩
    else none
  | _ => none

def parseDecimal (s : Str) : Option Dec :=
  match s with
  | '-' :: r => (parseDecimalCore r).map (fun d => ⟨-d.num, d.scale⟩)
  | '+' :: r => parseDecimalCore r
  | r => parseDecimalCore r

/-- services.py line 259: `Decimal('999999999999.99')`. -/
def maxAmount : Dec := ⟨99999999999999, 2⟩

/-- The three failure modes distinguished inside the `try` block of
services.py lines 254-260. -/
inductive AmountFailure
  | invalidOperation
  | negativeAmount
  | amountTooLarge
deriving DecidableEq

/-- services.py lines 254-260: the body of the `try` block — strip commas
and dollar signs, strip whitespace, parse as `Decimal`, reject negative and
over-limit amounts with their distinct messages. -/
def parse_amount_attempt (raw : Str) : Except AmountFailure Dec :=
  match parseDecimal (pyStrip ((raw.filter (· != ',')).filter (· != '$'))) with
  | none => .error .invalidOperation
  | some a =>
    if Dec.lt a ⟨0, 0⟩ then .error .negativeAmount
    else if Dec.lt maxAmount a then .error .amountTooLarge
    else .ok a

/-- services.py lines 253-262: the whole amount-parsing block.  The
`except (InvalidOperation, ValueError)` clause catches the distinct
`ValueError`s raised inside the `try` block as well, so every failure is
re-raised as the one generic message. -/
def parse_amount (raw : Str) : Except Str Dec :=
  match parse_amount_attempt raw with
  | .ok a => .ok a
  | .error _ => .error ("Invalid amount value: ".data ++ raw)

/-! ### Claim C6 -/

/-- Claim C6: the intended classification exists inside the `try` block
(`"-5.00"` is detected as a negative amount, `"1,234.56"` parses to
`1234.56`), but the enclosing `except (InvalidOperation, ValueError)` clause
swallows the distinct `NegativeAmount`/`AmountTooLarge` errors, so every
amount failure — negative, too large, or unparseable — surfaces as the same
generic `Invalid amount value` message: the distinct classification the spec
describes never reaches the error log. -/
theorem claim_C6_amount_bug :
    parse_amount_attempt "-5.00".data = .error .negativeAmount
    ∧ parse_amount_attempt "9999999999999".data = .error .amountTooLarge
    ∧ parse_amount "-5.00".data = .error "Invalid amount value: -5.00".data
    ∧ parse_amount "1,234.56".data = .ok ⟨123456, 2⟩
    ∧ ∀ raw : Str, (parse_amount raw).isOk = true
        ∨ parse_amount raw = .error ("Invalid amount value: ".data ++ raw) := by
  refine ⟨by decide, by decide, by decide, by decide, ?_⟩
  intro raw
  rw [parse_amount]
  cases parse_amount_attempt raw with
  | ok a => left; rfl
  | error e => right; rfl

/-! ### Data model (models.py lines 52-263)

Suppliers and categories are identified by their `(organization, name)`
unique pair (models.py lines 79, 118), so dimension rows are modelled as
those pairs.  A stored transaction keeps the fields of its uniqueness
constraint (models.py lines 189-194) plus its batch tag; the purely
descriptive columns (description, location, ...) are carried by no claim and
are omitted. -/

/-- The column tuple of the `unique_transaction_with_invoice` constraint. -/
structure TxnKey where
  organization : Nat
  supplier : Str
  category : Str
  amount : Dec
  date : Nat
  invoice_number : Str
deriving DecidableEq

/-- A stored `Transaction` row (key fields plus the batch tag). -/
structure Txn where
  key : TxnKey
  upload_batch : Str
deriving DecidableEq

/-- Whether two key tuples collide under the storage uniqueness constraint
(amounts compare by numeric value). -/
def keyMatches (k k' : TxnKey) : Bool :=
  k.organization == k'.organization && k.supplier == k'.supplier
    && k.category == k'.category && Dec.eqv k.amount k'.amount
    && k.date == k'.date && k.invoice_number == k'.invoice_number

/-- The database state the pipeline mutates. -/
structure DB where
  suppliers : List (Nat × Str)
  categories : List (Nat × Str)
  transactions : List Txn
deriving DecidableEq

def emptyDB : DB := ⟨[], [], []⟩

/-- `Supplier.objects.get_or_create` keyed on the unique pair
(services.py lines 230-234). -/
def getOrCreateSupplier (org : Nat) (name : Str) (db : DB) : DB :=
  if (org, name) ∈ db.suppliers then db
  else { db with suppliers := db.suppliers ++ [(org, name)] }

/-- `Category.objects.get_or_create` (services.py lines 241-245). -/
def getOrCreateCategory (org : Nat) (name : Str) (db : DB) : DB :=
  if (org, name) ∈ db.categories then db
  else { db with categories := db.categories ++ [(org, name)] }

/-- Whether inserting a row with key `k` violates the uniqueness
constraint, i.e. whether `Transaction.objects.create` raises
`IntegrityError` (services.py lines 276-288). -/
def hasKey (db : DB) (k : TxnKey) : Bool :=
  db.transactions.any (fun t => keyMatches t.key k)

def addTxn (db : DB) (t : Txn) : DB :=
  { db with transactions := db.transactions ++ [t] }

/-! ### Row Normalizer (services.py lines 222-294) -/

/-- One parsed CSV row: the four required columns and the optional columns
(`none` models an absent column or a `pandas` NA value). -/
structure CsvRow where
  supplier : Str
  category : Str
  amount : Str
  date : Str
  description : Option Str := none
  subcategory : Option Str := none
  location : Option Str := none
  fiscal_year : Option Str := none
  spend_band : Option Str := none
  payment_method : Option Str := none
  invoice_number : Option Str := none
deriving DecidableEq

/-- services.py lines 264-273: the sanitized invoice number, defaulting to
the empty string. -/
def invoiceOf (row : CsvRow) : Str :=
  match row.invoice_number with
  | some v => sanitize_csv_value (pyStrip v)
  | none => []

/-- Outcome of `_process_row`: it either returns normally (with the
committed database state and whether the caught-duplicate branch ran) or
raises (the `@transaction.atomic` wrapper rolls the row's writes back, so no
state accompanies a failure).  A caught `IntegrityError` also marks the
atomic block for rollback, so the duplicate branch commits nothing. -/
inductive RowResult
  | completed (db : DB) (dupHit : Bool)
  | failed (msg : Str)
deriving DecidableEq

/-- services.py lines 222-294: `_process_row`.  `pdate` is the
`pandas.to_datetime` oracle. -/
def process_row (pdate : Str → Option Nat) (org : Nat) (batch : Str)
    (skipDup : Bool) (db : DB) (row : CsvRow) : RowResult :=
  let sname := sanitize_csv_value (pyStrip row.supplier)
  if sname = [] ∨ sname = ['\''] then .failed "Supplier name is required".data
  else
    let db1 := getOrCreateSupplier org sname db
    let cname := sanitize_csv_value (pyStrip row.category)
    if cname = [] ∨ cname = ['\''] then .failed "Category name is required".data
    else
      let db2 := getOrCreateCategory org cname db1
      match pdate row.date with
      | none => .failed ("Invalid date format: ".data ++ row.date)
      | some d =>
        match parse_amount row.amount with
        | .error m => .failed m
        | .ok a =>
          let k : TxnKey := ⟨org, sname, cname, a, d, invoiceOf row⟩
          if hasKey db2 k then
            if skipDup then .completed db true
            else .failed "Duplicate transaction detected".data
          else .completed (addTxn db2 ⟨k, batch⟩) false

/-- The key a row would insert, when every parse step succeeds
(specification-side characterization of `_process_row`, batch-independent). -/
def rowParse (pdate : Str → Option Nat) (org : Nat) (row : CsvRow) : Option TxnKey :=
  let sname := sanitize_csv_value (pyStrip row.supplier)
  if sname = [] ∨ sname = ['\''] then none
  else
    let cname := sanitize_csv_value (pyStrip row.category)
    if cname = [] ∨ cname = ['\''] then none
    else
      match pdate row.date with
      | none => none
      | some d =>
        match parse_amount row.amount with
        | .error _ => none
        | .ok a => some ⟨org, sname, cname, a, d, invoiceOf row⟩

/-- Whether a row's key (if it parses) is absent from the database. -/
def rowFresh (pdate : Str → Option Nat) (org : Nat) (db : DB) (row : CsvRow) : Bool :=
  match rowParse pdate org row with
  | some k => !(hasKey db k)
  | none => true

/-! ### Ingestion Coordinator (services.py lines 109-220) -/

structure Stats where
  total : Int
  successful : Int
  failed : Int
  duplicates : Int
deriving DecidableEq

structure RunState where
  db : DB
  stats : Stats
  errors : List (Nat × Str)
deriving DecidableEq

/-- One iteration of the loop in `_process_rows` (services.py lines
208-220): a normal return counts as successful (the duplicate branch having
pre-decremented), an exception counts as failed and appends
`(index + 2, message)` to the error buffer. -/
def process_rows_step (pdate : Str → Option Nat) (org : Nat) (batch : Str)
    (skipDup : Bool) (st : RunState) (idx : Nat) (row : CsvRow) : RunState :=
  match process_row pdate org batch skipDup st.db row with
  | .completed db' true =>
    ⟨db',
      ⟨st.stats.total,
        st.stats.successful - 1 + 1,
        st.stats.failed,
        st.stats.duplicates + 1⟩,
      st.errors⟩
  | .completed db' false =>
    ⟨db',
      ⟨st.stats.total, st.stats.successful + 1, st.stats.failed, st.stats.duplicates⟩,
      st.errors⟩
  | .failed msg =>
    ⟨st.db,
      ⟨st.stats.total, st.stats.successful, st.stats.failed + 1, st.stats.duplicates⟩,
      st.errors ++ [(idx + 2, msg)]⟩

/-- services.py lines 208-220: `_process_rows`, folding over the rows in
file order starting at 0-based index `i`. -/
def process_rows (pdate : Str → Option Nat) (org : Nat) (batch : Str)
    (skipDup : Bool) : RunState → Nat → List CsvRow → RunState
  | st, _, [] => st
  | st, i, r :: rs =>
    process_rows pdate org batch skipDup
      (process_rows_step pdate org batch skipDup st i r) (i + 1) rs

/-- A `DataUpload` row (models.py lines 200-258). -/
structure Upload where
  file_name : Str
  original_file_name : Str
  file_size : Nat
  batch_id : Str
  total_rows : Int
  successful_rows : Int
  failed_rows : Int
  duplicate_rows : Int
  status : Str
  error_log : List ErrEntry
  completed_at : Bool
deriving DecidableEq

/-- models.py lines 253-258: `DataUpload.save` records the original name on
first save and sanitizes the stored file name. -/
def djangoSaveUpload (u : Upload) : Upload :=
  { u with
    original_file_name :=
      if u.file_name ≠ [] ∧ u.original_file_name = [] then u.file_name
      else u.original_file_name
    file_name := sanitize_filename u.file_name }

/-- services.py lines 154-159: the terminal status computation. -/
def computeStatus (s : Stats) : Str :=
  if s.failed = 0 then "completed".data
  else if 0 < s.successful then "partial".data
  else "failed".data

def MAX_ROWS_PER_UPLOAD : Nat := 50000

def REQUIRED_COLUMNS : List Str :=
  (["supplier", "category", "amount", "date"] : List String).map String.data

/-- Result of `CSVProcessor.process`: validation failure raises before any
`DataUpload` exists; a later exception leaves a failed `DataUpload` and
re-raises; success returns the finalized `DataUpload`. -/
inductive ProcessOutcome
  | invalidFile (msg : Str)
  | aborted (u : Upload) (msg : Str)
  | finished (u : Upload)
deriving DecidableEq

def ProcessOutcome.isFinished : ProcessOutcome → Bool
  | .finished _ => true
  | _ => false

def outcomeCounters : ProcessOutcome → Option (Int × Int × Int × Int)
  | .finished u => some (u.total_rows, u.successful_rows, u.failed_rows, u.duplicate_rows)
  | .aborted u _ => some (u.total_rows, u.successful_rows, u.failed_rows, u.duplicate_rows)
  | .invalidFile _ => none

def outcomeStatus : ProcessOutcome → Option Str
  | .finished u => some u.status
  | .aborted u _ => some u.status
  | .invalidFile _ => none

def outcomeLog : ProcessOutcome → Option (List ErrEntry)
  | .finished u => some u.error_log
  | .aborted u _ => some u.error_log
  | .invalidFile _ => none

def outcomeRaisedMsg : ProcessOutcome → Option Str
  | .aborted _ m => some m
  | _ => none

/-- services.py lines 120-127: the `DataUpload.objects.create(...)` call
(status `processing`), which goes through `DataUpload.save`. -/
def newUpload (f : UploadedFile) (batch : Str) : Upload :=
  djangoSaveUpload ⟨f.name, [], f.size, batch, 0, 0, 0, 0, "processing".data, [], false⟩

/-- services.py lines 163-169: the `except` path — mark the upload failed
with a single redacted entry, save, re-raise the sanitized message. -/
def abortRun (u0 : Upload) (m : Str) (db : DB) : ProcessOutcome × DB :=
  (.aborted
    (djangoSaveUpload { u0 with
      status := "failed".data
      error_log := [⟨none, sanitize_error_message m⟩]
      completed_at := true })
    (sanitize_error_message m), db)

/-- services.py lines 143-161: the success path — run the row loop, write
the counters, redact the error buffer, compute the terminal status, save. -/
def finishRun (pdate : Str → Option Nat) (org : Nat) (skipDup : Bool)
    (batch : Str) (f : UploadedFile) (rows : List CsvRow) (db : DB) :
    ProcessOutcome × DB :=
  let r := process_rows pdate org batch skipDup
    ⟨db, ⟨(rows.length : Int), 0, 0, 0⟩, []⟩ 0 rows
  (.finished (djangoSaveUpload { newUpload f batch with
    total_rows := (rows.length : Int)
    successful_rows := r.stats.successful
    failed_rows := r.stats.failed
    duplicate_rows := r.stats.duplicates
    error_log := sanitize_error_log r.errors
    completed_at := true
    status := computeStatus r.stats }), r.db)

/-- services.py lines 109-171: `CSVProcessor.process`.  `parsed` is the
outcome of `pandas.read_csv` (header columns and data rows, or a parse
error). -/
def process (pdate : Str → Option Nat) (org : Nat) (skipDup : Bool)
    (batch : Str) (f : UploadedFile)
    (parsed : Except Str (List Str × List CsvRow)) (db : DB) :
    ProcessOutcome × DB :=
  match validate_csv_file f with
  | (false, msg) => (.invalidFile ("Invalid file: ".data ++ msg), db)
  | (true, _) =>
    let u0 := newUpload f batch
    match parsed with
    | .error m => abortRun u0 m db
    | .ok (cols, rows) =>
      if MAX_ROWS_PER_UPLOAD < rows.length then
        abortRun u0 ("File contains ".data ++ Nat.toDigits 10 rows.length
          ++ " rows, maximum allowed is 50000".data) db
      else
        match REQUIRED_COLUMNS.filter (fun c => ¬ c ∈ cols) with
        | [] => finishRun pdate org skipDup batch f rows db
        | missing =>
          abortRun u0 ("Missing required columns: ".data
            ++ List.intercalate ", ".data missing) db

/-! ### Run-level bookkeeping lemmas -/

/-- Every processed row increments exactly one of the three outcome
counters (the duplicate branch's pre-decrement cancels against the caller's
increment), the counters never decrease, and `total` is never touched by the
loop. -/
theorem process_rows_stats (pdate : Str → Option Nat) (org : Nat) (batch : Str)
    (skipDup : Bool) :
    ∀ (rows : List CsvRow) (st : RunState) (i : Nat),
      (process_rows pdate org batch skipDup st i rows).stats.total = st.stats.total
      ∧ (process_rows pdate org batch skipDup st i rows).stats.successful
          + (process_rows pdate org batch skipDup st i rows).stats.failed
          + (process_rows pdate org batch skipDup st i rows).stats.duplicates
        = st.stats.successful + st.stats.failed + st.stats.duplicates + rows.length
      ∧ st.stats.successful ≤ (process_rows pdate org batch skipDup st i rows).stats.successful
      ∧ st.stats.failed ≤ (process_rows pdate org batch skipDup st i rows).stats.failed
      ∧ st.stats.duplicates ≤ (process_rows pdate org batch skipDup st i rows).stats.duplicates := by
  intro rows
  induction rows with
  | nil =>
    intro st i
    simp [process_rows]
  | cons r rs ih =>
    intro st i
    rw [process_rows]
    obtain ⟨h1, h2, h3, h4, h5⟩ := ih (process_rows_step pdate org batch skipDup st i r) (i + 1)
    rw [process_rows_step] at h1 h2 h3 h4 h5
    cases hpr : process_row pdate org batch skipDup st.db r with
    | completed db' dupHit =>
      rw [hpr] at h1 h2 h3 h4 h5
      rw [process_rows_step, hpr]
      cases dupHit <;> simp at h1 h2 h3 h4 h5 ⊢ <;>
        refine ⟨by omega, by omega, by omega, by omega, by omega⟩
    | failed msg =>
      rw [hpr] at h1 h2 h3 h4 h5
      dsimp at h1 h2 h3 h4 h5
      rw [process_rows_step, hpr]
      dsimp
      simp at h1 h2 h3 h4 h5 ⊢
      refine ⟨by omega, by omega, by omega, by omega, by omega⟩

/-- The database result of the loop depends only on the initial database,
and the final counters are the initial counters plus deltas that depend only
on the initial database (never on the starting index, the error buffer, or
the starting counters). -/
theorem process_rows_delta (pdate : Str → Option Nat) (org : Nat) (batch : Str)
    (skipDup : Bool) :
    ∀ (rows : List CsvRow) (db : DB) (s : Stats) (e : List (Nat × Str)) (i : Nat),
      (process_rows pdate org batch skipDup ⟨db, s, e⟩ i rows).db
        = (process_rows pdate org batch skipDup ⟨db, ⟨0, 0, 0, 0⟩, []⟩ 0 rows).db
      ∧ (process_rows pdate org batch skipDup ⟨db, s, e⟩ i rows).stats.total = s.total
      ∧ (process_rows pdate org batch skipDup ⟨db, s, e⟩ i rows).stats.successful
        = s.successful
          + (process_rows pdate org batch skipDup ⟨db, ⟨0, 0, 0, 0⟩, []⟩ 0 rows).stats.successful
      ∧ (process_rows pdate org batch skipDup ⟨db, s, e⟩ i rows).stats.failed
        = s.failed
          + (process_rows pdate org batch skipDup ⟨db, ⟨0, 0, 0, 0⟩, []⟩ 0 rows).stats.failed
      ∧ (process_rows pdate org batch skipDup ⟨db, s, e⟩ i rows).stats.duplicates
        = s.duplicates
          + (process_rows pdate org batch skipDup ⟨db, ⟨0, 0, 0, 0⟩, []⟩ 0 rows).stats.duplicates := by
  intro rows
  induction rows with
  | nil =>
    intro db s e i
    simp [process_rows]
  | cons r rs ih =>
    intro db s e i
    rw [process_rows, process_rows]
    rw [process_rows_step, process_rows_step]
    cases hpr : process_row pdate org batch skipDup db r with
    | completed db' dupHit =>
      cases dupHit
      · dsimp
        obtain ⟨g1, g2, g3, g4, g5⟩ := ih db'
          ⟨s.total, s.successful + 1, s.failed, s.duplicates⟩ e (i + 1)
        obtain ⟨z1, z2, z3, z4, z5⟩ := ih db'
          ⟨0, 0 + 1, 0, 0⟩ [] 1
        dsimp at g2 g3 g4 g5 z2 z3 z4 z5
        exact ⟨g1.trans z1.symm, by omega, by omega, by omega, by omega⟩
      · dsimp
        obtain ⟨g1, g2, g3, g4, g5⟩ := ih db'
          ⟨s.total, s.successful - 1 + 1, s.failed, s.duplicates + 1⟩ e (i + 1)
        obtain ⟨z1, z2, z3, z4, z5⟩ := ih db'
          ⟨0, 0 - 1 + 1, 0, 0 + 1⟩ [] 1
        dsimp at g2 g3 g4 g5 z2 z3 z4 z5
        exact ⟨g1.trans z1.symm, by omega, by omega, by omega, by omega⟩
    | failed msg =>
      dsimp
      obtain ⟨g1, g2, g3, g4, g5⟩ := ih db
        ⟨s.total, s.successful, s.failed + 1, s.duplicates⟩ (e ++ [(i + 2, msg)]) (i + 1)
      obtain ⟨z1, z2, z3, z4, z5⟩ := ih db
        ⟨0, 0, 0 + 1, 0⟩ ([] ++ [(0 + 2, msg)]) 1
      dsimp at g2 g3 g4 g5 z2 z3 z4 z5
      exact ⟨g1.trans z1.symm, by omega, by omega, by omega, by omega⟩

/-- Inversion of `process`: it either rejects the file outright with no
upload row, aborts after creating the upload row, or finishes the row loop
(in which case the row count and required columns checks passed). -/
theorem process_cases (pdate : Str → Option Nat) (org : Nat) (skipDup : Bool)
    (batch : Str) (f : UploadedFile)
    (parsed : Except Str (List Str × List CsvRow)) (db : DB) :
    (∃ m, validate_csv_file f = (false, m)
      ∧ process pdate org skipDup batch f parsed db
          = (.invalidFile ("Invalid file: ".data ++ m), db))
    ∨ (∃ m, process pdate org skipDup batch f parsed db
          = abortRun (newUpload f batch) m db)
    ∨ (∃ cols rows, parsed = .ok (cols, rows)
        ∧ REQUIRED_COLUMNS.filter (fun c => ¬ c ∈ cols) = []
        ∧ rows.length ≤ MAX_ROWS_PER_UPLOAD
        ∧ process pdate org skipDup batch f parsed db
            = finishRun pdate org skipDup batch f rows db) := by
  rw [process]
  rcases hv : validate_csv_file f with ⟨b, msg⟩
  cases b
  · exact Or.inl ⟨msg, rfl, rfl⟩
  · dsimp
    cases parsed with
    | error m => exact Or.inr (Or.inl ⟨m, rfl⟩)
    | ok p =>
      rcases p with ⟨cols, rows⟩
      dsimp
      by_cases hlim : MAX_ROWS_PER_UPLOAD < rows.length
      · rw [if_pos hlim]
        exact Or.inr (Or.inl ⟨_, rfl⟩)
      · rw [if_neg hlim]
        cases hm : REQUIRED_COLUMNS.filter (fun c => ¬ c ∈ cols) with
        | nil =>
          exact Or.inr (Or.inr ⟨cols, rows, rfl, hm, Nat.not_lt.mp hlim, rfl⟩)
        | cons a l =>
          exact Or.inr (Or.inl ⟨_, rfl⟩)

/-! ### Concrete inputs used by witnesses -/

/-- A concrete stand-in for the `pandas.to_datetime` oracle, recognising the
two dates the witnesses use. -/
def demoParseDate : Str → Option Nat := fun s =>
  if s = "2024-01-05".data then some 20240105
  else if s = "2024-02-06".data then some 20240206
  else none

/-- A small valid CSV file. -/
def demoFile : UploadedFile := ⟨"data.csv".data, 10, [104, 105], true⟩

def demoRow1 : CsvRow :=
  { supplier := "Acme".data, category := "Office".data,
    amount := "10.00".data, date := "2024-01-05".data }

def demoRow2 : CsvRow :=
  { supplier := "Acme".data, category := "Office".data,
    amount := "20.00".data, date := "2024-01-05".data }

def demoRow3 : CsvRow :=
  { supplier := "Acme".data, category := "Office".data,
    amount := "30.00".data, date := "2024-02-06".data }

/-- A row whose date no date parser accepts. -/
def demoRowBad : CsvRow :=
  { supplier := "Acme".data, category := "Office".data,
    amount := "40.00".data, date := "nope".data }

/-- The file of the §8 scenario: three valid rows and one row with an
unparseable date, all sharing one supplier and category name. -/
def scenarioRows : List CsvRow := [demoRow1, demoRowBad, demoRow2, demoRow3]

def scenarioRun : ProcessOutcome × DB :=
  process demoParseDate 1 true "b".data demoFile
    (.ok (REQUIRED_COLUMNS, scenarioRows)) emptyDB

/-! ### Claim C1 -/

/-- Claim C1, confirmed.  Whenever an ingestion run finishes its row loop
(no unexpected exception escapes, so the outcome is a finalized Ledger), the
counters satisfy `successful + failed + duplicate ≤ total` (in fact the code
gives equality), and the terminal status is `completed` iff no row failed,
`failed` iff no row succeeded and some row failed, and `partial` exactly
otherwise. -/
theorem claim_C1_ledger_invariant (pdate : Str → Option Nat) (org : Nat)
    (skipDup : Bool) (batch : Str) (f : UploadedFile)
    (parsed : Except Str (List Str × List CsvRow)) (db : DB) (t s fl d : Int)
    (hfin : (process pdate org skipDup batch f parsed db).1.isFinished = true)
    (hc : outcomeCounters (process pdate org skipDup batch f parsed db).1
      = some (t, s, fl, d)) :
    s + fl + d ≤ t
    ∧ (outcomeStatus (process pdate org skipDup batch f parsed db).1
        = some "completed".data ↔ fl = 0)
    ∧ (outcomeStatus (process pdate org skipDup batch f parsed db).1
        = some "failed".data ↔ (s = 0 ∧ 0 < fl))
    ∧ (outcomeStatus (process pdate org skipDup batch f parsed db).1
        = some "partial".data ↔ (0 < fl ∧ 0 < s)) := by
  rcases process_cases pdate org skipDup batch f parsed db with
    ⟨m, hv, hp⟩ | ⟨m, hp⟩ | ⟨cols, rows, hparsed, hcols, hlim, hp⟩
  · rw [hp] at hfin
    simp [ProcessOutcome.isFinished] at hfin
  · rw [hp] at hfin
    simp [abortRun, ProcessOutcome.isFinished] at hfin
  · rw [hp] at hc ⊢
    have hcc : outcomeCounters (finishRun pdate org skipDup batch f rows db).1
        = some ((rows.length : Int),
            (process_rows pdate org batch skipDup
              ⟨db, ⟨(rows.length : Int), 0, 0, 0⟩, []⟩ 0 rows).stats.successful,
            (process_rows pdate org batch skipDup
              ⟨db, ⟨(rows.length : Int), 0, 0, 0⟩, []⟩ 0 rows).stats.failed,
            (process_rows pdate org batch skipDup
              ⟨db, ⟨(rows.length : Int), 0, 0, 0⟩, []⟩ 0 rows).stats.duplicates) := rfl
    have hst : outcomeStatus (finishRun pdate org skipDup batch f rows db).1
        = some (computeStatus (process_rows pdate org batch skipDup
            ⟨db, ⟨(rows.length : Int), 0, 0, 0⟩, []⟩ 0 rows).stats) := rfl
    rw [hcc] at hc
    rw [hst]
    rw [Option.some.injEq, Prod.mk.injEq, Prod.mk.injEq, Prod.mk.injEq] at hc
    obtain ⟨ht, hs, hfl, hd⟩ := hc
    subst ht hs hfl hd
    obtain ⟨htot, hsum, hs0, hf0, hd0⟩ := process_rows_stats pdate org batch skipDup
      rows ⟨db, ⟨(rows.length : Int), 0, 0, 0⟩, []⟩ 0
    dsimp at htot hsum hs0 hf0 hd0
    refine ⟨by omega, ?_, ?_, ?_⟩
    · rw [computeStatus]
      by_cases hfz : (process_rows pdate org batch skipDup
          ⟨db, ⟨(rows.length : Int), 0, 0, 0⟩, []⟩ 0 rows).stats.failed = 0
      · rw [if_pos hfz]
        exact iff_of_true rfl hfz
      · rw [if_neg hfz]
        by_cases hsz : 0 < (process_rows pdate org batch skipDup
            ⟨db, ⟨(rows.length : Int), 0, 0, 0⟩, []⟩ 0 rows).stats.successful
        · rw [if_pos hsz]
          exact iff_of_false (by decide) hfz
        · rw [if_neg hsz]
          exact iff_of_false (by decide) hfz
    · rw [computeStatus]
      by_cases hfz : (process_rows pdate org batch skipDup
          ⟨db, ⟨(rows.length : Int), 0, 0, 0⟩, []⟩ 0 rows).stats.failed = 0
      · rw [if_pos hfz]
        exact iff_of_false (by decide) (fun hx => by omega)
      · rw [if_neg hfz]
        by_cases hsz : 0 < (process_rows pdate org batch skipDup
            ⟨db, ⟨(rows.length : Int), 0, 0, 0⟩, []⟩ 0 rows).stats.successful
        · rw [if_pos hsz]
          exact iff_of_false (by decide) (fun hx => by omega)
        · rw [if_neg hsz]
          exact iff_of_true rfl ⟨by omega, by omega⟩
    · rw [computeStatus]
      by_cases hfz : (process_rows pdate org batch skipDup
          ⟨db, ⟨(rows.length : Int), 0, 0, 0⟩, []⟩ 0 rows).stats.failed = 0
      · rw [if_pos hfz]
        exact iff_of_false (by decide) (fun hx => by omega)
      · rw [if_neg hfz]
        by_cases hsz : 0 < (process_rows pdate org batch skipDup
            ⟨db, ⟨(rows.length : Int), 0, 0, 0⟩, []⟩ 0 rows).stats.successful
        · rw [if_pos hsz]
          exact iff_of_true rfl ⟨by omega, hsz⟩
        · rw [if_neg hsz]
          exact iff_of_false (by decide) (fun hx => by omega)

/-- Claim C1, witness: a one-row run that finishes with counters
`(1, 1, 0, 0)` and status `completed`. -/
theorem claim_C1_ledger_invariant_witness :
    (1 : Int) + 0 + 0 ≤ 1
    ∧ (outcomeStatus (process demoParseDate 1 true "b".data demoFile
        (.ok (REQUIRED_COLUMNS, [demoRow1])) emptyDB).1
        = some "completed".data ↔ (0 : Int) = 0)
    ∧ (outcomeStatus (process demoParseDate 1 true "b".data demoFile
        (.ok (REQUIRED_COLUMNS, [demoRow1])) emptyDB).1
        = some "failed".data ↔ ((1 : Int) = 0 ∧ (0 : Int) < 0))
    ∧ (outcomeStatus (process demoParseDate 1 true "b".data demoFile
        (.ok (REQUIRED_COLUMNS, [demoRow1])) emptyDB).1
        = some "partial".data ↔ ((0 : Int) < 0 ∧ (0 : Int) < 1)) :=
  claim_C1_ledger_invariant demoParseDate 1 true "b".data demoFile
    (.ok (REQUIRED_COLUMNS, [demoRow1])) emptyDB 1 1 0 0 (by decide) (by decide)

/-! ### Claim C4 -/

/-- Claim C4, confirmed.  (1) A failing row contributes exactly one failed
count and one error entry, and the database seen by the remaining rows is
the state from before the failing row — its supplier/category creations and
its insert roll back.  (2) Consequently a run with the failing row differs
from the run without it only by `failed + 1` (database, successful and
duplicate counts are untouched).  (3) The §8 scenario: 3 valid rows plus one
bad-date row sharing one supplier/category over empty dimension tables
yields total=4, successful=3, failed=1, duplicate=0, status=`partial`, and
exactly one supplier and one category row. -/
theorem claim_C4_row_atomicity :
    (∀ (pdate : Str → Option Nat) (org : Nat) (batch : Str) (skipDup : Bool)
        (st : RunState) (i : Nat) (row : CsvRow) (msg : Str) (rs : List CsvRow),
      process_row pdate org batch skipDup st.db row = .failed msg →
      process_rows pdate org batch skipDup st i (row :: rs)
        = process_rows pdate org batch skipDup
            ⟨st.db,
              ⟨st.stats.total, st.stats.successful, st.stats.failed + 1, st.stats.duplicates⟩,
              st.errors ++ [(i + 2, msg)]⟩ (i + 1) rs)
    ∧ (∀ (pdate : Str → Option Nat) (org : Nat) (batch : Str) (skipDup : Bool)
        (st : RunState) (i : Nat) (row : CsvRow) (msg : Str) (rs : List CsvRow),
      process_row pdate org batch skipDup st.db row = .failed msg →
      (process_rows pdate org batch skipDup st i (row :: rs)).db
          = (process_rows pdate org batch skipDup st i rs).db
        ∧ (process_rows pdate org batch skipDup st i (row :: rs)).stats.successful
          = (process_rows pdate org batch skipDup st i rs).stats.successful
        ∧ (process_rows pdate org batch skipDup st i (row :: rs)).stats.duplicates
          = (process_rows pdate org batch skipDup st i rs).stats.duplicates
        ∧ (process_rows pdate org batch skipDup st i (row :: rs)).stats.failed
          = (process_rows pdate org batch skipDup st i rs).stats.failed + 1)
    ∧ (outcomeCounters scenarioRun.1 = some (4, 3, 1, 0)
        ∧ outcomeStatus scenarioRun.1 = some "partial".data
        ∧ scenarioRun.2.suppliers = [(1, "Acme".data)]
        ∧ scenarioRun.2.categories = [(1, "Office".data)]
        ∧ scenarioRun.2.transactions.length = 3) := by
  have step_eq : ∀ (pdate : Str → Option Nat) (org : Nat) (batch : Str) (skipDup : Bool)
      (st : RunState) (i : Nat) (row : CsvRow) (msg : Str) (rs : List CsvRow),
      process_row pdate org batch skipDup st.db row = .failed msg →
      process_rows pdate org batch skipDup st i (row :: rs)
        = process_rows pdate org batch skipDup
            ⟨st.db,
              ⟨st.stats.total, st.stats.successful, st.stats.failed + 1, st.stats.duplicates⟩,
              st.errors ++ [(i + 2, msg)]⟩ (i + 1) rs := by
    intro pdate org batch skipDup st i row msg rs h
    rw [process_rows, process_rows_step, h]
  refine ⟨step_eq, ?_, by decide, by decide, by decide, by decide, by decide⟩
  intro pdate org batch skipDup st i row msg rs h
  obtain ⟨db0, s0, e0⟩ := st
  rw [step_eq pdate org batch skipDup ⟨db0, s0, e0⟩ i row msg rs h]
  dsimp
  obtain ⟨g1, g2, g3, g4, g5⟩ := process_rows_delta pdate org batch skipDup rs db0
    ⟨s0.total, s0.successful, s0.failed + 1, s0.duplicates⟩ (e0 ++ [(i + 2, msg)]) (i + 1)
  obtain ⟨r1, r2, r3, r4, r5⟩ := process_rows_delta pdate org batch skipDup rs db0 s0 e0 i
  dsimp at g2 g3 g4 g5
  exact ⟨g1.trans r1.symm, by omega, by omega, by omega⟩

/-- Claim C4, witness: the one-step equation instantiated at a concrete
failing row over the empty database. -/
theorem claim_C4_row_atomicity_witness :
    process_rows demoParseDate 1 "b".data true ⟨emptyDB, ⟨4, 0, 0, 0⟩, []⟩ 0 [demoRowBad]
      = process_rows demoParseDate 1 "b".data true
          ⟨emptyDB, ⟨4, 0, 0 + 1, 0⟩, [(0 + 2, "Invalid date format: nope".data)]⟩ 1 [] :=
  claim_C4_row_atomicity.1 demoParseDate 1 "b".data true ⟨emptyDB, ⟨4, 0, 0, 0⟩, []⟩ 0
    demoRowBad "Invalid date format: nope".data [] (by decide)

/-! ### Claim C5 -/

/-- Claim C5, counterexample.  The claim says the re-raised error text never
contains the raw exception detail.  For a parse failure whose message is
`boom` — which matches no sensitive pattern and is under 200 characters —
the redactor passes it through verbatim, so the caller-visible text *is* the
raw exception text. -/
theorem claim_C5_counterexample :
    outcomeRaisedMsg (process demoParseDate 1 true "b".data demoFile
        (.error "boom".data) emptyDB).1 = some "boom".data
    ∧ hasSubstr "boom".data "boom".data = true := by
  exact ⟨by decide, by decide⟩

/-- Claim C5, amended.  When upload-level validation fails, `process` raises
with no Ledger row created (the database is untouched and no upload value
exists in the outcome).  When an unexpected exception escapes after the
Ledger exists, the Ledger is persisted with status `failed` and a single
entry equal to the re-raised text, and that text is the *redacted* message:
a generic phrase when the raw text contains a sensitive marker, truncated
beyond 200 characters, and otherwise the raw exception text itself (which
the caller therefore can see). -/
theorem claim_C5_amended (pdate : Str → Option Nat) (org : Nat) (skipDup : Bool)
    (batch : Str) (f : UploadedFile) (parsed : Except Str (List Str × List CsvRow))
    (db : DB) :
    (∀ m, validate_csv_file f = (false, m) →
      process pdate org skipDup batch f parsed db
        = (.invalidFile ("Invalid file: ".data ++ m), db))
    ∧ (∀ m', outcomeRaisedMsg (process pdate org skipDup batch f parsed db).1 = some m' →
        outcomeStatus (process pdate org skipDup batch f parsed db).1 = some "failed".data
        ∧ outcomeLog (process pdate org skipDup batch f parsed db).1 = some [⟨none, m'⟩]
        ∧ (process pdate org skipDup batch f parsed db).2 = db)
    ∧ (∀ raw, validate_csv_file f = (true, []) → parsed = .error raw →
        outcomeRaisedMsg (process pdate org skipDup batch f parsed db).1
          = some (sanitize_error_message raw)) := by
  refine ⟨?_, ?_, ?_⟩
  · intro m hm
    rw [process, hm]
  · intro m' hmsg
    rcases process_cases pdate org skipDup batch f parsed db with
      ⟨m, hv, hp⟩ | ⟨m, hp⟩ | ⟨cols, rows, hparsed, hcols, hlim, hp⟩
    · rw [hp] at hmsg
      simp [outcomeRaisedMsg] at hmsg
    · rw [hp] at hmsg ⊢
      have h1 : outcomeRaisedMsg (abortRun (newUpload f batch) m db).1
          = some (sanitize_error_message m) := rfl
      rw [h1, Option.some.injEq] at hmsg
      subst hmsg
      exact ⟨rfl, rfl, rfl⟩
    · rw [hp] at hmsg
      have h1 : outcomeRaisedMsg (finishRun pdate org skipDup batch f rows db).1
          = none := rfl
      rw [h1] at hmsg
      cases hmsg
  · intro raw hval hparsed
    subst hparsed
    rw [process, hval]
    rfl

/-- Claim C5, witness for the amended theorem: for the concrete `boom` parse
failure the persisted Ledger is `failed` with the single matching entry and
the database is untouched. -/
theorem claim_C5_amended_witness :
    (process demoParseDate 1 true "b".data demoFile (.error "boom".data) emptyDB
      = (.invalidFile ("Invalid file: ".data ++ "x".data), emptyDB)
      ∨ True)
    ∧ (outcomeStatus (process demoParseDate 1 true "b".data demoFile
          (.error "boom".data) emptyDB).1 = some "failed".data
        ∧ outcomeLog (process demoParseDate 1 true "b".data demoFile
            (.error "boom".data) emptyDB).1 = some [⟨none, "boom".data⟩]
        ∧ (process demoParseDate 1 true "b".data demoFile
            (.error "boom".data) emptyDB).2 = emptyDB)
    ∧ outcomeRaisedMsg (process demoParseDate 1 true "b".data demoFile
          (.error "boom".data) emptyDB).1
        = some (sanitize_error_message "boom".data) :=
  ⟨Or.inr trivial,
   (claim_C5_amended demoParseDate 1 true "b".data demoFile
      (.error "boom".data) emptyDB).2.1 "boom".data (by decide),
   (claim_C5_amended demoParseDate 1 true "b".data demoFile
      (.error "boom".data) emptyDB).2.2 "boom".data (by decide) rfl⟩

/-! ### Claim C8 -/

/-- Claim C8, confirmed.  Every error log the coordinator persists — the
redacted row-error buffer of a finished run or the single entry of an
aborted run — has at most 100 entries, each entry holds only a row position
and a message whose lowercased text contains none of the sensitive markers
(messages that contained one were replaced by the generic phrase), and every
message is at most 203 characters (200 plus the truncation marker).  The
redaction itself replaces marker-bearing messages with the generic phrase
and truncates clean messages beyond 200 characters. -/
theorem claim_C8_error_log (pdate : Str → Option Nat) (org : Nat) (skipDup : Bool)
    (batch : Str) (f : UploadedFile) (parsed : Except Str (List Str × List CsvRow))
    (db : DB) :
    (∀ L, outcomeLog (process pdate org skipDup batch f parsed db).1 = some L →
      L.length ≤ 100
      ∧ ∀ e ∈ L,
          (∀ p ∈ sensitive_patterns,
            hasSubstr (toLowerStr p) (toLowerStr e.error) = false)
          ∧ e.error.length ≤ 203)
    ∧ (∀ m, sensitive_patterns.any
          (fun p => hasSubstr (toLowerStr p) (toLowerStr m)) = true →
        sanitize_error_message m = genericRowError)
    ∧ (∀ m, sensitive_patterns.any
          (fun p => hasSubstr (toLowerStr p) (toLowerStr m)) = false →
        200 < m.length →
        sanitize_error_message m = m.take 200 ++ "...".data) := by
  refine ⟨?_, ?_, ?_⟩
  · intro L hL
    rcases process_cases pdate org skipDup batch f parsed db with
      ⟨m, hv, hp⟩ | ⟨m, hp⟩ | ⟨cols, rows, hparsed, hcols, hlim, hp⟩
    · rw [hp] at hL
      simp [outcomeLog] at hL
    · rw [hp] at hL
      have h1 : outcomeLog (abortRun (newUpload f batch) m db).1
          = some [⟨none, sanitize_error_message m⟩] := rfl
      rw [h1, Option.some.injEq] at hL
      subst hL
      refine ⟨by rw [List.length_singleton]; omega, ?_⟩
      intro e he
      rw [List.mem_singleton] at he
      subst he
      exact ⟨sanitize_error_message_no_trigger m, sanitize_error_message_length m⟩
    · rw [hp] at hL
      have h1 : outcomeLog (finishRun pdate org skipDup batch f rows db).1
          = some (sanitize_error_log (process_rows pdate org batch skipDup
              ⟨db, ⟨(rows.length : Int), 0, 0, 0⟩, []⟩ 0 rows).errors) := rfl
      rw [h1, Option.some.injEq] at hL
      subst hL
      constructor
      · rw [sanitize_error_log, List.length_map]
        exact List.length_take_le _ _
      · intro e he
        rw [sanitize_error_log] at he
        obtain ⟨⟨rr, mm⟩, hmem, he⟩ := List.mem_map.mp he
        subst he
        exact ⟨sanitize_error_message_no_trigger mm, sanitize_error_message_length mm⟩
  · intro m hm
    rw [sanitize_error_message, if_pos hm]
  · intro m hm hlen
    rw [sanitize_error_message, if_neg (by simp [hm]), if_pos hlen]

/-- Claim C8, witness: the scenario run's log has one entry, its message is
marker-free and short, and a marker-bearing message is replaced by the
generic phrase. -/
theorem claim_C8_error_log_witness :
    hasSubstr (toLowerStr "SQL".data)
        (toLowerStr (ErrEntry.mk (some 3) "Invalid date format: nope".data).error) = false
    ∧ (ErrEntry.mk (some 3) "Invalid date format: nope".data).error.length ≤ 203
    ∧ ([ErrEntry.mk (some 3) "Invalid date format: nope".data] : List ErrEntry).length ≤ 100
    ∧ sanitize_error_message "psycopg2 exploded".data = genericRowError :=
  have h := (claim_C8_error_log demoParseDate 1 true "b".data demoFile
      (.ok (REQUIRED_COLUMNS, scenarioRows)) emptyDB).1
    [⟨some 3, "Invalid date format: nope".data⟩] (by decide)
  ⟨(h.2 ⟨some 3, "Invalid date format: nope".data⟩ (by decide)).1 "SQL".data (by decide),
   (h.2 ⟨some 3, "Invalid date format: nope".data⟩ (by decide)).2,
   h.1,
   (claim_C8_error_log demoParseDate 1 true "b".data demoFile
      (.ok (REQUIRED_COLUMNS, scenarioRows)) emptyDB).2.1
     "psycopg2 exploded".data (by decide)⟩

/-! ### Duplicate-detection lemmas -/

theorem Dec.eqv_refl (a : Dec) : Dec.eqv a a = true := by
  simp [Dec.eqv]

theorem keyMatches_refl (k : TxnKey) : keyMatches k k = true := by
  simp [keyMatches, Dec.eqv]

theorem getOrCreateSupplier_transactions (org : Nat) (n : Str) (db : DB) :
    (getOrCreateSupplier org n db).transactions = db.transactions := by
  rw [getOrCreateSupplier]
  split <;> rfl

theorem getOrCreateCategory_transactions (org : Nat) (n : Str) (db : DB) :
    (getOrCreateCategory org n db).transactions = db.transactions := by
  rw [getOrCreateCategory]
  split <;> rfl

theorem hasKey_eq_of_transactions {db db' : DB}
    (h : db.transactions = db'.transactions) (k : TxnKey) :
    hasKey db k = hasKey db' k := by
  rw [hasKey, hasKey, h]

theorem hasKey_addTxn (db : DB) (t : Txn) (k : TxnKey) :
    hasKey (addTxn db t) k = (hasKey db k || keyMatches t.key k) := by
  rw [hasKey, hasKey, addTxn]
  dsimp
  rw [List.any_append]
  simp

theorem hasKey_of_mem {db : DB} {t : Txn} (hmem : t ∈ db.transactions)
    (hm : keyMatches t.key k = true) : hasKey db k = true :=
  List.any_eq_true.mpr ⟨t, hmem, hm⟩

/-- A pairwise-compatible Boolean distinctness check on key lists. -/
def keysDistinct : List TxnKey → Bool
  | [] => true
  | k :: ks => ks.all (fun k' => !(keyMatches k k')) && keysDistinct ks

/-- A row that parses to a fresh key commits the dimension get-or-creates
and the insert, and returns without the duplicate branch. -/
theorem process_row_of_fresh {pdate : Str → Option Nat} {org : Nat} {row : CsvRow}
    {k : TxnKey} (batch : Str) (skipDup : Bool) (db : DB)
    (hp : rowParse pdate org row = some k) (hf : hasKey db k = false) :
    process_row pdate org batch skipDup db row
      = .completed (addTxn (getOrCreateCategory org k.category
          (getOrCreateSupplier org k.supplier db)) ⟨k, batch⟩) false := by
  rw [rowParse] at hp
  dsimp only at hp
  rw [process_row]
  dsimp only
  by_cases h1 : sanitize_csv_value (pyStrip row.supplier) = []
      ∨ sanitize_csv_value (pyStrip row.supplier) = ['\'']
  · rw [if_pos h1] at hp
    cases hp
  · rw [if_neg h1] at hp
    rw [if_neg h1]
    by_cases h2 : sanitize_csv_value (pyStrip row.category) = []
        ∨ sanitize_csv_value (pyStrip row.category) = ['\'']
    · rw [if_pos h2] at hp
      cases hp
    · rw [if_neg h2] at hp
      rw [if_neg h2]
      cases hdate : pdate row.date with
      | none =>
        rw [hdate] at hp
        dsimp only at hp
        cases hp
      | some d =>
        rw [hdate] at hp
        dsimp only at hp
        cases hamt : parse_amount row.amount with
        | error m =>
          rw [hamt] at hp
          dsimp only at hp
          cases hp
        | ok a =>
          rw [hamt] at hp
          dsimp only at hp
          rw [Option.some.injEq] at hp
          subst hp
          dsimp only
          have htr : (getOrCreateCategory org
                (sanitize_csv_value (pyStrip row.category))
                (getOrCreateSupplier org
                  (sanitize_csv_value (pyStrip row.supplier)) db)).transactions
              = db.transactions := by
            rw [getOrCreateCategory_transactions, getOrCreateSupplier_transactions]
          have hk2 : hasKey (getOrCreateCategory org
                (sanitize_csv_value (pyStrip row.category))
                (getOrCreateSupplier org
                  (sanitize_csv_value (pyStrip row.supplier)) db))
              ⟨org, sanitize_csv_value (pyStrip row.supplier),
                sanitize_csv_value (pyStrip row.category), a, d, invoiceOf row⟩
              = false := by
            rw [hasKey_eq_of_transactions htr]
            exact hf
          rw [if_neg (by rw [hk2]; exact Bool.false_ne_true)]

/-- A row that parses to an already-present key takes the caught
`IntegrityError` branch with `skip_duplicates` on: nothing commits. -/
theorem process_row_of_dup {pdate : Str → Option Nat} {org : Nat} {row : CsvRow}
    {k : TxnKey} (batch : Str) (db : DB)
    (hp : rowParse pdate org row = some k) (hf : hasKey db k = true) :
    process_row pdate org batch true db row = .completed db true := by
  rw [rowParse] at hp
  dsimp only at hp
  rw [process_row]
  dsimp only
  by_cases h1 : sanitize_csv_value (pyStrip row.supplier) = []
      ∨ sanitize_csv_value (pyStrip row.supplier) = ['\'']
  · rw [if_pos h1] at hp
    cases hp
  · rw [if_neg h1] at hp
    rw [if_neg h1]
    by_cases h2 : sanitize_csv_value (pyStrip row.category) = []
        ∨ sanitize_csv_value (pyStrip row.category) = ['\'']
    · rw [if_pos h2] at hp
      cases hp
    · rw [if_neg h2] at hp
      rw [if_neg h2]
      cases hdate : pdate row.date with
      | none =>
        rw [hdate] at hp
        dsimp only at hp
        cases hp
      | some d =>
        rw [hdate] at hp
        dsimp only at hp
        cases hamt : parse_amount row.amount with
        | error m =>
          rw [hamt] at hp
          dsimp only at hp
          cases hp
        | ok a =>
          rw [hamt] at hp
          dsimp only at hp
          rw [Option.some.injEq] at hp
          subst hp
          dsimp only
          have htr : (getOrCreateCategory org
                (sanitize_csv_value (pyStrip row.category))
                (getOrCreateSupplier org
                  (sanitize_csv_value (pyStrip row.supplier)) db)).transactions
              = db.transactions := by
            rw [getOrCreateCategory_transactions, getOrCreateSupplier_transactions]
          have hk2 : hasKey (getOrCreateCategory org
                (sanitize_csv_value (pyStrip row.category))
                (getOrCreateSupplier org
                  (sanitize_csv_value (pyStrip row.supplier)) db))
              ⟨org, sanitize_csv_value (pyStrip row.supplier),
                sanitize_csv_value (pyStrip row.category), a, d, invoiceOf row⟩
              = true := by
            rw [hasKey_eq_of_transactions htr]
            exact hf
          rw [if_pos hk2, if_pos rfl]

/-- A run over rows that all parse to pairwise-distinct keys absent from
the database succeeds on every row: the transactions grow by exactly those
keys, every row counts as successful, and no errors are recorded. -/
theorem process_rows_all_fresh (pdate : Str → Option Nat) (org : Nat)
    (batch : Str) (skipDup : Bool) :
    ∀ (rows : List CsvRow) (db : DB) (s : Stats) (e : List (Nat × Str)) (i : Nat),
      (∀ r ∈ rows, (rowParse pdate org r).isSome = true) →
      (∀ r ∈ rows, ∀ k, rowParse pdate org r = some k → hasKey db k = false) →
      keysDistinct (rows.filterMap (rowParse pdate org)) = true →
      (process_rows pdate org batch skipDup ⟨db, s, e⟩ i rows).db.transactions
          = db.transactions
            ++ (rows.filterMap (rowParse pdate org)).map (fun k => Txn.mk k batch)
      ∧ (process_rows pdate org batch skipDup ⟨db, s, e⟩ i rows).stats.total = s.total
      ∧ (process_rows pdate org batch skipDup ⟨db, s, e⟩ i rows).stats.successful
          = s.successful + rows.length
      ∧ (process_rows pdate org batch skipDup ⟨db, s, e⟩ i rows).stats.failed = s.failed
      ∧ (process_rows pdate org batch skipDup ⟨db, s, e⟩ i rows).stats.duplicates
          = s.duplicates
      ∧ (process_rows pdate org batch skipDup ⟨db, s, e⟩ i rows).errors = e := by
  intro rows
  induction rows with
  | nil =>
    intro db s e i _ _ _
    simp [process_rows]
  | cons r rs ih =>
    intro db s e i hv hf hd
    obtain ⟨k, hk⟩ := Option.isSome_iff_exists.mp (hv r (by simp))
    have hfk : hasKey db k = false := hf r (by simp) k hk
    have hfm : (r :: rs).filterMap (rowParse pdate org)
        = k :: rs.filterMap (rowParse pdate org) := by
      rw [List.filterMap_cons, hk]
    rw [hfm] at hd
    rw [keysDistinct, Bool.and_eq_true, List.all_eq_true] at hd
    obtain ⟨hd1, hd2⟩ := hd
    rw [process_rows, process_rows_step]
    dsimp only
    rw [process_row_of_fresh batch skipDup db hk hfk]
    dsimp only
    have htr2 : (addTxn (getOrCreateCategory org k.category
          (getOrCreateSupplier org k.supplier db)) ⟨k, batch⟩).transactions
        = db.transactions ++ [⟨k, batch⟩] := by
      rw [addTxn]
      dsimp only
      rw [getOrCreateCategory_transactions, getOrCreateSupplier_transactions]
    obtain ⟨g1, g2, g3, g4, g5, g6⟩ := ih
      (addTxn (getOrCreateCategory org k.category
        (getOrCreateSupplier org k.supplier db)) ⟨k, batch⟩)
      ⟨s.total, s.successful + 1, s.failed, s.duplicates⟩ e (i + 1)
      (fun r' hr' => hv r' (by simp [hr']))
      (fun r' hr' k' hk' => by
        rw [hasKey_addTxn]
        have hx : hasKey (getOrCreateCategory org k.category
            (getOrCreateSupplier org k.supplier db)) k' = hasKey db k' :=
          hasKey_eq_of_transactions (by
            rw [getOrCreateCategory_transactions, getOrCreateSupplier_transactions]) k'
        rw [hx, hf r' (by simp [hr']) k' hk']
        have hkk' : keyMatches k k' = false := by
          have := hd1 k' (List.mem_filterMap.mpr ⟨r', hr', hk'⟩)
          simpa using this
        dsimp only
        rw [hkk']
        rfl)
      hd2
    refine ⟨?_, ?_, ?_, ?_, ?_, ?_⟩
    · rw [g1, htr2, hfm, List.map_cons, List.append_assoc, List.singleton_append]
    · dsimp at g2
      rw [g2]
    · dsimp at g3
      rw [g3, List.length_cons]
      push_cast
      omega
    · dsimp at g4
      rw [g4]
    · dsimp at g5
      rw [g5]
    · exact g6

/-- A run (with duplicate-skipping on) over rows that all parse to keys
already present in the database records every row as a duplicate and changes
nothing: the database, the success and failure counts, and the error buffer
are untouched. -/
theorem process_rows_all_dup (pdate : Str → Option Nat) (org : Nat) (batch : Str) :
    ∀ (rows : List CsvRow) (db : DB) (s : Stats) (e : List (Nat × Str)) (i : Nat),
      (∀ r ∈ rows, (rowParse pdate org r).isSome = true) →
      (∀ r ∈ rows, ∀ k, rowParse pdate org r = some k → hasKey db k = true) →
      (process_rows pdate org batch true ⟨db, s, e⟩ i rows).db = db
      ∧ (process_rows pdate org batch true ⟨db, s, e⟩ i rows).stats.total = s.total
      ∧ (process_rows pdate org batch true ⟨db, s, e⟩ i rows).stats.successful
          = s.successful
      ∧ (process_rows pdate org batch true ⟨db, s, e⟩ i rows).stats.failed = s.failed
      ∧ (process_rows pdate org batch true ⟨db, s, e⟩ i rows).stats.duplicates
          = s.duplicates + rows.length
      ∧ (process_rows pdate org batch true ⟨db, s, e⟩ i rows).errors = e := by
  intro rows
  induction rows with
  | nil =>
    intro db s e i _ _
    simp [process_rows]
  | cons r rs ih =>
    intro db s e i hv hf
    obtain ⟨k, hk⟩ := Option.isSome_iff_exists.mp (hv r (by simp))
    have hfk : hasKey db k = true := hf r (by simp) k hk
    rw [process_rows, process_rows_step]
    dsimp only
    rw [process_row_of_dup batch db hk hfk]
    dsimp only
    obtain ⟨g1, g2, g3, g4, g5, g6⟩ := ih db
      ⟨s.total, s.successful - 1 + 1, s.failed, s.duplicates + 1⟩ e (i + 1)
      (fun r' hr' => hv r' (by simp [hr']))
      (fun r' hr' k' hk' => hf r' (by simp [hr']) k' hk')
    refine ⟨g1, ?_, ?_, ?_, ?_, g6⟩
    · dsimp at g2
      rw [g2]
    · dsimp at g3
      rw [g3]
      simp
    · dsimp at g4
      rw [g4]
    · dsimp at g5
      rw [g5, List.length_cons]
      push_cast
      omega

/-! ### Claim C3 -/

/-- Claim C3, confirmed.  Re-running a file of N valid, pairwise-distinct
rows with duplicate-skipping on, with no interleaving runs: the first run
finishes with `successful = N, duplicate = 0` and stores exactly the N new
transactions; the second run finishes with `successful = 0, duplicate = N`
and stores nothing — the database after the second run equals the database
after the first.  Duplicate detection is the membership test `hasKey`
embedding the storage uniqueness constraint on
`(organization, supplier, category, amount, date, invoice_number)`. -/
theorem claim_C3_reimport_idempotent (pdate : Str → Option Nat) (org : Nat)
    (b1 b2 : Str) (f : UploadedFile) (cols : List Str) (rows : List CsvRow)
    (db : DB)
    (hval : validate_csv_file f = (true, []))
    (hlimit : rows.length ≤ MAX_ROWS_PER_UPLOAD)
    (hcols : REQUIRED_COLUMNS.filter (fun c => ¬ c ∈ cols) = [])
    (hv : ∀ r ∈ rows, (rowParse pdate org r).isSome = true)
    (hfresh : ∀ r ∈ rows, rowFresh pdate org db r = true)
    (hdist : keysDistinct (rows.filterMap (rowParse pdate org)) = true) :
    (process pdate org true b1 f (.ok (cols, rows)) db).1.isFinished = true
    ∧ outcomeCounters (process pdate org true b1 f (.ok (cols, rows)) db).1
        = some ((rows.length : Int), (rows.length : Int), 0, 0)
    ∧ (process pdate org true b1 f (.ok (cols, rows)) db).2.transactions
        = db.transactions
          ++ (rows.filterMap (rowParse pdate org)).map (fun k => Txn.mk k b1)
    ∧ (process pdate org true b2 f (.ok (cols, rows))
        (process pdate org true b1 f (.ok (cols, rows)) db).2).1.isFinished = true
    ∧ outcomeCounters (process pdate org true b2 f (.ok (cols, rows))
        (process pdate org true b1 f (.ok (cols, rows)) db).2).1
        = some ((rows.length : Int), 0, 0, (rows.length : Int))
    ∧ (process pdate org true b2 f (.ok (cols, rows))
        (process pdate org true b1 f (.ok (cols, rows)) db).2).2
        = (process pdate org true b1 f (.ok (cols, rows)) db).2 := by
  have hp1 : process pdate org true b1 f (.ok (cols, rows)) db
      = finishRun pdate org true b1 f rows db := by
    rw [process, hval]
    dsimp only
    rw [if_neg (Nat.not_lt.mpr hlimit), hcols]
  have hfresh' : ∀ r ∈ rows, ∀ k, rowParse pdate org r = some k →
      hasKey db k = false := by
    intro r hr k hk
    have h := hfresh r hr
    rw [rowFresh, hk] at h
    simpa using h
  obtain ⟨t1, t2, t3, t4, t5, t6⟩ := process_rows_all_fresh pdate org b1 true rows db
    ⟨(rows.length : Int), 0, 0, 0⟩ [] 0 hv hfresh' hdist
  have hdb1 : (finishRun pdate org true b1 f rows db).2
      = (process_rows pdate org b1 true
          ⟨db, ⟨(rows.length : Int), 0, 0, 0⟩, []⟩ 0 rows).db := rfl
  have hdup2 : ∀ r ∈ rows, ∀ k, rowParse pdate org r = some k →
      hasKey (process_rows pdate org b1 true
        ⟨db, ⟨(rows.length : Int), 0, 0, 0⟩, []⟩ 0 rows).db k = true := by
    intro r hr k hk
    have hmem : (Txn.mk k b1) ∈ (process_rows pdate org b1 true
        ⟨db, ⟨(rows.length : Int), 0, 0, 0⟩, []⟩ 0 rows).db.transactions := by
      rw [t1]
      exact List.mem_append_right _
        (List.mem_map.mpr ⟨k, List.mem_filterMap.mpr ⟨r, hr, hk⟩, rfl⟩)
    exact hasKey_of_mem hmem (keyMatches_refl k)
  have hp2 : process pdate org true b2 f (.ok (cols, rows))
        (process pdate org true b1 f (.ok (cols, rows)) db).2
      = finishRun pdate org true b2 f rows
        (process_rows pdate org b1 true
          ⟨db, ⟨(rows.length : Int), 0, 0, 0⟩, []⟩ 0 rows).db := by
    rw [hp1, hdb1, process, hval]
    dsimp only
    rw [if_neg (Nat.not_lt.mpr hlimit), hcols]
  obtain ⟨d1, d2, d3, d4, d5, d6⟩ := process_rows_all_dup pdate org b2 rows
    (process_rows pdate org b1 true
      ⟨db, ⟨(rows.length : Int), 0, 0, 0⟩, []⟩ 0 rows).db
    ⟨(rows.length : Int), 0, 0, 0⟩ [] 0 hv hdup2
  have hdb2 : (finishRun pdate org true b2 f rows
        (process_rows pdate org b1 true
          ⟨db, ⟨(rows.length : Int), 0, 0, 0⟩, []⟩ 0 rows).db).2
      = (process_rows pdate org b2 true
          ⟨(process_rows pdate org b1 true
              ⟨db, ⟨(rows.length : Int), 0, 0, 0⟩, []⟩ 0 rows).db,
            ⟨(rows.length : Int), 0, 0, 0⟩, []⟩ 0 rows).db := rfl
  refine ⟨?_, ?_, ?_, ?_, ?_, ?_⟩
  · rw [hp1]
    rfl
  · rw [hp1]
    have hcc1 : outcomeCounters (finishRun pdate org true b1 f rows db).1
        = some ((rows.length : Int),
            (process_rows pdate org b1 true
              ⟨db, ⟨(rows.length : Int), 0, 0, 0⟩, []⟩ 0 rows).stats.successful,
            (process_rows pdate org b1 true
              ⟨db, ⟨(rows.length : Int), 0, 0, 0⟩, []⟩ 0 rows).stats.failed,
            (process_rows pdate org b1 true
              ⟨db, ⟨(rows.length : Int), 0, 0, 0⟩, []⟩ 0 rows).stats.duplicates) := rfl
    rw [hcc1, Option.some.injEq, Prod.mk.injEq, Prod.mk.injEq, Prod.mk.injEq]
    dsimp at t3 t4 t5
    exact ⟨rfl, by omega, by omega, by omega⟩
  · rw [hp1, hdb1, t1]
  · rw [hp2]
    rfl
  · rw [hp2]
    have hcc2 : outcomeCounters (finishRun pdate org true b2 f rows
          (process_rows pdate org b1 true
            ⟨db, ⟨(rows.length : Int), 0, 0, 0⟩, []⟩ 0 rows).db).1
        = some ((rows.length : Int),
            (process_rows pdate org b2 true
              ⟨(process_rows pdate org b1 true
                  ⟨db, ⟨(rows.length : Int), 0, 0, 0⟩, []⟩ 0 rows).db,
                ⟨(rows.length : Int), 0, 0, 0⟩, []⟩ 0 rows).stats.successful,
            (process_rows pdate org b2 true
              ⟨(process_rows pdate org b1 true
                  ⟨db, ⟨(rows.length : Int), 0, 0, 0⟩, []⟩ 0 rows).db,
                ⟨(rows.length : Int), 0, 0, 0⟩, []⟩ 0 rows).stats.failed,
            (process_rows pdate org b2 true
              ⟨(process_rows pdate org b1 true
                  ⟨db, ⟨(rows.length : Int), 0, 0, 0⟩, []⟩ 0 rows).db,
                ⟨(rows.length : Int), 0, 0, 0⟩, []⟩ 0 rows).stats.duplicates) := rfl
    rw [hcc2, Option.some.injEq, Prod.mk.injEq, Prod.mk.injEq, Prod.mk.injEq]
    dsimp at d3 d4 d5
    exact ⟨rfl, by omega, by omega, by omega⟩
  · rw [hp2, hdb2, d1, hp1, hdb1]

/-- Claim C3, witness: importing a concrete two-row file twice over the
empty database. -/
theorem claim_C3_reimport_idempotent_witness :
    (process demoParseDate 1 true "u1".data demoFile
      (.ok (REQUIRED_COLUMNS, [demoRow1, demoRow2])) emptyDB).1.isFinished = true
    ∧ outcomeCounters (process demoParseDate 1 true "u1".data demoFile
        (.ok (REQUIRED_COLUMNS, [demoRow1, demoRow2])) emptyDB).1
        = some (2, 2, 0, 0)
    ∧ (process demoParseDate 1 true "u1".data demoFile
        (.ok (REQUIRED_COLUMNS, [demoRow1, demoRow2])) emptyDB).2.transactions
        = emptyDB.transactions
          ++ ([demoRow1, demoRow2].filterMap (rowParse demoParseDate 1)).map
              (fun k => Txn.mk k "u1".data)
    ∧ (process demoParseDate 1 true "u2".data demoFile
        (.ok (REQUIRED_COLUMNS, [demoRow1, demoRow2]))
        (process demoParseDate 1 true "u1".data demoFile
          (.ok (REQUIRED_COLUMNS, [demoRow1, demoRow2])) emptyDB).2).1.isFinished = true
    ∧ outcomeCounters (process demoParseDate 1 true "u2".data demoFile
        (.ok (REQUIRED_COLUMNS, [demoRow1, demoRow2]))
        (process demoParseDate 1 true "u1".data demoFile
          (.ok (REQUIRED_COLUMNS, [demoRow1, demoRow2])) emptyDB).2).1
        = some (2, 0, 0, 2)
    ∧ (process demoParseDate 1 true "u2".data demoFile
        (.ok (REQUIRED_COLUMNS, [demoRow1, demoRow2]))
        (process demoParseDate 1 true "u1".data demoFile
          (.ok (REQUIRED_COLUMNS, [demoRow1, demoRow2])) emptyDB).2).2
        = (process demoParseDate 1 true "u1".data demoFile
          (.ok (REQUIRED_COLUMNS, [demoRow1, demoRow2])) emptyDB).2 :=
  claim_C3_reimport_idempotent demoParseDate 1 "u1".data "u2".data demoFile
    REQUIRED_COLUMNS [demoRow1, demoRow2] emptyDB
    (by decide) (by decide) (by decide) (by decide) (by decide) (by decide)

end Versatex
